import Mathlib

/-!
Shallow embedding of `generate_mock_data.py`, the synthetic game-telemetry
generator of this repository.  Python's global Mersenne-Twister stream is
modelled by an abstract draw sequence `ρ : Nat → Nat` together with an
explicit position counter threaded through every sampling function in the
source's call order.  Library sampling primitives (which live in CPython's
`random` module, not in this repository) are embedded by their exact
support:

* `random.random()` — the k-th draw interpreted as the exact dyadic
  rational `(ρ k % 2^53) / 2^53 ∈ [0,1)`; CPython's `random()` returns
  `getrandbits(53) / 2^53`, so this support is exact;
* `random.randint(a, b)` — `a + ρ k % (b - a + 1)`;
* `random.choices(pop, weights)[0]` — CPython draws `random() * total`
  and bisects the cumulative weights with the index capped at the last
  element; embedded by `choicesPick`;
* `int(random.lognormvariate ...)`, `int(random.expovariate ...)` — the
  truncated value has support ℕ, embedded as the raw draw `ρ k`;
* `int(math.floor(random.paretovariate 2.0))` — support {1, 2, ...},
  embedded as `1 + ρ k`;
* `random.sample` / `random.shuffle` — selection sampling driven by the
  stream (`sampleR`); the support (every k-permutation of the input)
  matches the library's;
* `math.exp` — an oracle parameter `expFn`, constrained only by
  nonnegativity where a proof needs it.

Timestamps are integers counting seconds since `START_DATE`
(2025-01-01 00:00 UTC); day index `d` starts at second `d * 86400`.
Monetary amounts are exact rationals; Python's float banker's rounding is
`pyRound` (on every rounded quantity of this program the float and exact
rational computations agree).
-/

namespace PDD

/-- Abstract random-draw sequence standing for the seeded PRNG stream. -/
abbrev RSeq := Nat → Nat

/-- Resolution of CPython's `random.random()`: 53 random bits. -/
def D53 : Nat := 2 ^ 53

/-- Embedding of `random.random()`: the k-th draw as an exact dyadic
rational in `[0, 1)`. -/
def unitDraw (ρ : RSeq) (k : Nat) : ℚ := ((ρ k % D53 : Nat) : ℚ) / (D53 : ℚ)

/-- Embedding of `random.randint(a, b)` on naturals.  Python raises on
`a > b`; no call site of the source reaches that case under its
configuration, and we return `a` there to stay total. -/
def randintN (ρ : RSeq) (k a b : Nat) : Nat :=
  if a ≤ b then a + ρ k % (b - a + 1) else a

/-- Cumulative-weight selection used by `random.choices`: return the value
at the first index whose cumulative weight strictly exceeds the draw, the
index being capped at the last element (CPython bisects with
`hi = len(population) - 1`). -/
def choicesPick {α : Type} (x : ℚ) : List (α × ℚ) → Option α
  | [] => none
  | [(v, _)] => some v
  | (v, w) :: c :: rest =>
      if x < w then some v else choicesPick (x - w) (c :: rest)

/-- Total sum of the weights of a choice table. -/
def totalW {α : Type} (l : List (α × ℚ)) : ℚ := (l.map Prod.snd).sum

/-- Embedding of `random.choices(pop, weights=ws)[0]`: one `random()` draw
scaled by the total weight, then cumulative selection.  The default `d` is
never returned for a nonempty table (see `choicesD_mem`). -/
def choicesD {α : Type} (ρ : RSeq) (k : Nat) (l : List (α × ℚ)) (d : α) : α :=
  (choicesPick (unitDraw ρ k * totalW l) l).getD d

/-- Cumulative scan of `pick_country_and_tz`: the source compares with
`r <= upto` (non-strict) and falls back to the last table entry. -/
def pickLE {α : Type} (x : ℚ) : List (α × ℚ) → Option α
  | [] => none
  | (v, w) :: rest =>
      if x ≤ w then some v
      else
        match pickLE (x - w) rest with
        | some u => some u
        | none => some v

/-- Embedding of `random.choice(lst)`. -/
def choiceU {α : Type} (ρ : RSeq) (k : Nat) (l : List α) (d : α) : α :=
  l.getD (ρ k % l.length) d

/-- Embedding of `random.sample(pool, n)` (and, at `n = pool.length`, of
`random.shuffle`): selection sampling without replacement, one stream draw
per selection.  Removal is by value (`List.erase`); on the duplicate-free
pools of this program that coincides with removal by position. -/
def sampleR {α : Type} [DecidableEq α] (ρ : RSeq) : Nat → List α → Nat → List α × Nat
  | 0, _, k => ([], k)
  | _ + 1, [], k => ([], k)
  | n + 1, a :: pool, k =>
      let v := (a :: pool).getD (ρ k % (a :: pool).length) a
      let res := sampleR ρ n ((a :: pool).erase v) (k + 1)
      (v :: res.1, res.2)

/-- Python's `round` on the exact rational value: round half to even. -/
def pyRound (x : ℚ) : ℤ :=
  if Int.fract x < 1 / 2 then ⌊x⌋
  else if 1 / 2 < Int.fract x then ⌈x⌉
  else if 2 ∣ ⌊x⌋ then ⌊x⌋ else ⌊x⌋ + 1

/-- Maximum of a list of rationals, with 0 for the empty list; on lists of
positive entries this equals Python's `max`. -/
def listMax (l : List ℚ) : ℚ := l.foldl max 0

/-! Global config / knobs of the source. -/

/-- Source `NUM_DAYS`: length of the simulated period in days. -/
def NUM_DAYS : Nat := 180

/-- Source `N_PLAYERS`. -/
def N_PLAYERS : Nat := 40000

/-- Source `MAX_DAU`: design peak DAU target. -/
def MAX_DAU : Nat := 15000

/-- Source `PATCH_DAYS`. -/
def PATCH_DAYS : List Nat := [60, 120, 180]

/-- In-memory player representation (source class `PlayerMeta`).  The two
mutable fields `level` and `total_spend_eur` (initialised to 1 and 0.0 at
construction) are carried as per-player-id maps inside the activity
generator's state, because Python mutates them through the aliased pool
entries; all other fields are immutable after creation. -/
structure PlayerMeta where
  player_id : Nat
  created_day : Nat
  country_code : String
  platform : String
  time_zone_offset : Int
  engagement_segment : String
  spend_segment : String
  churn_day_idx : Nat
  deriving DecidableEq

/-! DAU curve with seasonality and patches (source `generate_dau_curve`). -/

/-- One multiplicative patch-spike step of the `for pd in PATCH_DAYS` loop. -/
def patchStep (numDays t : Nat) (m : ℚ) (pd : Nat) : ℚ :=
  if pd < numDays then
    let dist := ((t : ℤ) - (pd : ℤ)).natAbs
    if dist = 0 then m * (7 / 5)
    else if dist = 1 then m * (6 / 5)
    else if dist = 2 then m * (11 / 10)
    else m
  else m

/-- Relative (pre-normalisation) DAU value for day `t`; `expFn` is the
`math.exp` oracle and `k` the position of the day's noise draw.  The
`day_of_year` truncation is computed on exact rationals; float rounding in
the source can shift a season boundary by at most one day, which no claim
depends on. -/
def dauRel (ρ : RSeq) (expFn : ℚ → ℚ) (numDays t k : Nat) : ℚ :=
  let tau_fast : ℚ := max 7 ((numDays : ℚ) * (1 / 10))
  let long_term_floor : ℚ := 6 / 10
  let launch_spike_height : ℚ := 8 / 10
  let base := long_term_floor + launch_spike_height * expFn (-(t : ℚ) / tau_fast)
  let day_of_year : Nat := (t * 365) / max 1 numDays
  let season_mult : ℚ :=
    (if 150 ≤ day_of_year ∧ day_of_year ≤ 240 then (8 : ℚ) / 10 else 1) *
    (if 330 ≤ day_of_year ∧ day_of_year ≤ 364 then (13 : ℚ) / 10 else 1)
  let patch_mult : ℚ := PATCH_DAYS.foldl (patchStep numDays t) 1
  let noise : ℚ := 95 / 100 + unitDraw ρ k * (105 / 100 - 95 / 100)
  base * season_mult * patch_mult * noise

/-- Source `generate_dau_curve`, parameterised over the horizon and the
peak target (the source reads the module constants `NUM_DAYS`/`MAX_DAU`).
One noise draw per day, so day `t` uses stream position `k + t`; returns
the curve together with the next stream position. -/
def generate_dau_curve (ρ : RSeq) (expFn : ℚ → ℚ) (numDays maxDau k : Nat) :
    List ℤ × Nat :=
  let rel := (List.range numDays).map (fun t => dauRel ρ expFn numDays t (k + t))
  let max_rel := listMax rel
  (rel.map (fun x => pyRound ((maxDau : ℚ) * (x / max_rel))), k + numDays)

/-! Player generation (source `generate_players`). -/

/-- Country and timezone table of `pick_country_and_tz`, with its weights. -/
def countryTable : List ((String × Int) × ℚ) :=
  [(("US", -5), 12 / 100), (("US", -8), 8 / 100), (("CA", -5), 4 / 100),
   (("GB", 0), 8 / 100), (("DE", 1), 6 / 100), (("FR", 1), 6 / 100),
   (("BR", -3), 8 / 100), (("IN", 5), 8 / 100), (("JP", 9), 8 / 100),
   (("KR", 9), 8 / 100), (("OTHER", 0), 24 / 100)]

/-- Source `pick_country_and_tz`: one `random()` draw, cumulative scan with
non-strict comparison, fallback to the last table entry.  The `getD`
default is unreachable (the table is nonempty). -/
def pick_country_and_tz (ρ : RSeq) (k : Nat) : String × Int :=
  (pickLE (unitDraw ρ k * totalW countryTable) countryTable).getD ("OTHER", 0)

/-- Source `generate_players` loop body for one player id.  Draw order:
creation bucket `u`, creation offset, country/timezone, platform,
engagement segment, spend segment, core-user check, and (non-core only)
the exponential extra lifetime. -/
def genOnePlayer (ρ : RSeq) (numDays pid k : Nat) : PlayerMeta × Nat :=
  let u := unitDraw ρ k
  let offset0 :=
    if u < 60 / 100 then randintN ρ (k + 1) 0 3
    else if u < 85 / 100 then randintN ρ (k + 1) 4 (min 30 (numDays - 1))
    else if u < 95 / 100 then randintN ρ (k + 1) 31 (min 90 (numDays - 1))
    else randintN ρ (k + 1) 91 (numDays - 1)
  -- `max(0, min(offset_days, NUM_DAYS - 1))`; the `max 0` is trivial on ℕ
  let offset_days := min offset0 (numDays - 1)
  let ct := pick_country_and_tz ρ (k + 2)
  let platform := choicesD ρ (k + 3) [("Android", 6 / 10), ("iOS", 4 / 10)] "Android"
  let engagement := choicesD ρ (k + 4)
    [("casual", 7 / 10), ("midcore", 2 / 10), ("heavy", 1 / 10)] "casual"
  let r := unitDraw ρ (k + 5)
  let spend :=
    if r < 2 / 1000 then "whale"
    else if r < 2 / 1000 + 18 / 1000 then "dolphin"
    else if r < 2 / 1000 + 18 / 1000 + 8 / 100 then "minnow"
    else "nonpayer"
  if unitDraw ρ (k + 6) < 15 / 100 then
    (⟨pid, offset_days, ct.1, platform, ct.2, engagement, spend, numDays - 1⟩, k + 7)
  else
    -- `max(1, int(random.expovariate(1.0 / 45.0)))`, clamped to the horizon
    let extra_life := max 1 (ρ (k + 7))
    (⟨pid, offset_days, ct.1, platform, ct.2, engagement, spend,
      min (numDays - 1) (offset_days + extra_life)⟩, k + 8)

/-- Loop of `generate_players` over player ids. -/
def playersLoop (ρ : RSeq) (numDays : Nat) : Nat → Nat → Nat → List PlayerMeta × Nat
  | 0, _, k => ([], k)
  | n + 1, pid, k =>
      let pk := genOnePlayer ρ numDays pid k
      let rest := playersLoop ρ numDays n (pid + 1) pk.2
      (pk.1 :: rest.1, rest.2)

/-- Source `generate_players`, parameterised over the horizon (the source
reads the module constant `NUM_DAYS`). -/
def generate_players (ρ : RSeq) (numDays n k : Nat) : List PlayerMeta × Nat :=
  playersLoop ρ numDays n 1 k

/-! Player table rows (source `insert_players`).  The SQL insert itself is
persistence; the embedding keeps the generated row values. -/

/-- One row of the `players` table, with the timestamp as a day index and
the timezone as the stored hour offset. -/
structure PlayerRow where
  player_id : Nat
  created_day : Nat
  country_code : String
  platform : String
  device_model : String
  os_version : String
  acquisition_channel : String
  acquisition_campaign : String
  language_code : String
  time_zone : Int
  deriving DecidableEq

/-- Acquisition channel table of `insert_players` with its weights. -/
def channelsT : List (String × ℚ) :=
  [("Organic", 5 / 10), ("AdsNetworkA", 2 / 10), ("AdsNetworkB", 2 / 10),
   ("CrossPromo", 1 / 10)]

/-- Campaign list of `insert_players`. -/
def campaignsL : List String := ["", "Launch2025", "SummerEvent", "HolidayPush"]

/-- Row loop of `insert_players`: channel draw, campaign draw (skipped for
Organic), device-model and OS-version draws, in source order.  The
language is `"en"` for every row (both branches of the source conditional
yield `"en"`). -/
def playerRowsLoop (ρ : RSeq) : List PlayerMeta → Nat → List PlayerRow × Nat
  | [], k => ([], k)
  | p :: ps, k =>
      let channel := choicesD ρ k channelsT "Organic"
      let ck :=
        if channel = "Organic" then ("", k + 1)
        else (choiceU ρ (k + 1) campaignsL "", k + 2)
      let dev := randintN ρ ck.2 1 5
      let osv := randintN ρ (ck.2 + 1) 12 16
      let row : PlayerRow :=
        ⟨p.player_id, p.created_day, p.country_code, p.platform,
         p.platform ++ "_Device_" ++ toString dev, toString osv ++ ".0",
         channel, ck.1, "en", p.time_zone_offset⟩
      let rest := playerRowsLoop ρ ps (ck.2 + 2)
      (row :: rest.1, rest.2)

/-- Source `insert_players`, as the list of generated rows. -/
def insert_players (ρ : RSeq) (players : List PlayerMeta) (k : Nat) :
    List PlayerRow × Nat :=
  playerRowsLoop ρ players k

/-! Teams and memberships (source `generate_teams_and_memberships`). -/

/-- One row of the `teams` table (`disbanded_at_utc` is always NULL). -/
structure TeamRow where
  team_id : Nat
  created_day : Nat
  tier_level : Nat
  max_members : Nat
  deriving DecidableEq

/-- One row of the `team_memberships` table (`left_at_utc` is always NULL). -/
structure MembershipRow where
  membership_id : Nat
  player_id : Nat
  team_id : Nat
  joined_day : Nat
  is_leader : Bool
  deriving DecidableEq

/-- Membership rows of one team: one joined-offset draw per member, the
first member flagged leader; returns the rows, the next membership id and
the next stream position. -/
def memberRows (ρ : RSeq) (tid : Nat) :
    List PlayerMeta → Nat → Nat → Bool → List MembershipRow × Nat × Nat
  | [], mid, k, _ => ([], mid, k)
  | p :: ps, mid, k, lead =>
      let row : MembershipRow :=
        ⟨mid, p.player_id, tid, p.created_day + randintN ρ k 0 60, lead⟩
      let rest := memberRows ρ tid ps (mid + 1) (k + 1) false
      (row :: rest.1, rest.2)

/-- Team-size bucket draw of one team (source lines 430–444): returns
(max_members, tier_level, next stream position).  The small bucket draws
`randint(1, 5)`; every bucket yields `max_members ≥ 1`. -/
def teamBucket (ρ : RSeq) (k : Nat) : Nat × Nat × Nat :=
  let bucket := choicesD ρ k
    [("small", 7 / 10), ("medium", 2 / 10), ("large", 1 / 10)] "small"
  if bucket = "small" then (randintN ρ (k + 1) 1 5, 0, k + 2)
  else if bucket = "medium" then (25, 1, k + 1)
  else (45, 2, k + 1)

/-- The `while i < len(shuffled_players)` loop of
`generate_teams_and_memberships`, consuming the shuffled population into
teams.  `fuel` bounds the recursion; the caller passes the pool length,
which suffices because every team takes at least one member
(`max_members ≥ 1` in all three buckets). -/
def teamsLoop (ρ : RSeq) (numDays : Nat) :
    Nat → List PlayerMeta → Nat → Nat → Nat → List TeamRow × List MembershipRow × Nat
  | _, [], _, _, k => ([], [], k)
  | 0, _ :: _, _, _, k => ([], [], k)
  | fuel + 1, p :: ps, tid, mid, k =>
      let mmk := teamBucket ρ k
      let team_size := min mmk.1 (p :: ps).length
      let created := randintN ρ mmk.2.2 0 (numDays - 1)
      let mrows := memberRows ρ tid ((p :: ps).take team_size) mid (mmk.2.2 + 1) true
      let rest := teamsLoop ρ numDays fuel ((p :: ps).drop team_size) (tid + 1)
        mrows.2.1 mrows.2.2
      (⟨tid, created, mmk.2.1, mmk.1⟩ :: rest.1,
       mrows.1 ++ rest.2.1, rest.2.2)

/-- Source `generate_teams_and_memberships`: shuffle the population, then
greedily consume it into teams. -/
def generate_teams_and_memberships (ρ : RSeq) (numDays : Nat)
    (players : List PlayerMeta) (k : Nat) :
    List TeamRow × List MembershipRow × Nat :=
  let sh := sampleR ρ players.length players k
  teamsLoop ρ numDays sh.1.length sh.1 1 1 sh.2

/-! Experiment assignments (source `generate_experiments`). -/

/-- One row of the `experiment_assignments` table. -/
structure ExperimentRow where
  experiment_name : String
  player_id : Nat
  variant : String
  assigned_day : Nat
  deriving DecidableEq

/-- Row loop of `generate_experiments`: one variant draw per player. -/
def experimentsLoop (ρ : RSeq) : List PlayerMeta → Nat → List ExperimentRow × Nat
  | [], k => ([], k)
  | p :: ps, k =>
      let v := choicesD ρ k
        [("Control", 5 / 10), ("A", 25 / 100), ("B", 25 / 100)] "Control"
      let rest := experimentsLoop ρ ps (k + 1)
      (⟨"shop_pricing_v1", p.player_id, v, p.created_day⟩ :: rest.1, rest.2)

/-- Source `generate_experiments`. -/
def generate_experiments (ρ : RSeq) (players : List PlayerMeta) (k : Nat) :
    List ExperimentRow × Nat :=
  experimentsLoop ρ players k

/-! Sessions, events, purchases (source
`generate_sessions_events_purchases`).  Batch flushing is pure
persistence: rows reach the database in exactly the order they were
buffered, so the embedding simply accumulates the rows in order. -/

/-- One row of the `sessions` table; timestamps in seconds since
`START_DATE`. -/
structure SessionRow where
  session_id : Nat
  player_id : Nat
  session_start : Int
  session_end : Int
  duration_sec : Nat
  client_version : String
  build_number : String
  country_code : String
  platform : String
  entry_point : String
  season_id : Nat
  deriving DecidableEq

/-- One row of the `events` table. -/
structure EventRow where
  event_id : Nat
  player_id : Nat
  session_id : Nat
  event_time : Int
  event_type : String
  game_mode : String
  match_outcome : Option String
  level : Nat
  match_id : Nat
  soft_delta : Nat
  soft_currency_purchased : Nat
  hard_delta : Nat
  metadata_json : String
  deriving DecidableEq

/-- One row of the `purchases` table; prices in integer cents. -/
structure PurchaseRow where
  purchase_id : Nat
  player_id : Nat
  session_id : Nat
  purchase_time : Int
  product_id : String
  product_type : String
  currency_code : String
  price_local : Int
  price_eur : Int
  quantity : Nat
  grants_soft_amount : Nat
  grants_hard_amount : Nat
  platform : String
  country_code : String
  deriving DecidableEq

/-- Ghost per-day observation: the pool after eviction and admission, and
the day's realized active set ([] on skipped days).  This record is not
part of the source's output and influences nothing downstream; it exists
so that theorems can speak about the per-day pool and active set. -/
structure DayLog where
  pool : List PlayerMeta
  actives : List PlayerMeta
  deriving DecidableEq

/-- Mutable state of the activity generator: the stream position, the four
id counters (all starting at 1), the accumulated rows, the per-player-id
`level` and `total_spend_eur` maps (source fields `PlayerMeta.level`,
initially 1, and `PlayerMeta.total_spend_eur`, initially 0), and the ghost
day log. -/
structure GenState where
  k : Nat
  session_id_counter : Nat
  event_id_counter : Nat
  purchase_id_counter : Nat
  match_id_counter : Nat
  sessions : List SessionRow
  events : List EventRow
  purchases : List PurchaseRow
  levels : Nat → Nat
  total_spend_eur : Nat → ℚ
  dayLog : List DayLog

/-- Initial activity-generator state at stream position `k`. -/
def initGenState (k : Nat) : GenState :=
  ⟨k, 1, 1, 1, 1, [], [], [], fun _ => 1, fun _ => 0, []⟩

/-- Product catalogue of the purchase branch:
(sku, product_type, EUR price, soft grant, hard grant) with weights. -/
def productCatalogue : List ((String × String × ℚ × Nat × Nat) × ℚ) :=
  [(("soft_small", "SoftPack", 199 / 100, 500, 0), 3 / 10),
   (("soft_large", "SoftPack", 999 / 100, 3000, 0), 2 / 10),
   (("hard_small", "HardPack", 499 / 100, 0, 50), 2 / 10),
   (("hard_large", "HardPack", 1999 / 100, 0, 300), 1 / 10),
   (("bundle", "Bundle", 999 / 100, 2500, 50), 2 / 10)]

/-- Purchase branch at the end of each match (source lines 781–830): only
for paying segments, with segment-dependent purchase probability; on
success one catalogue draw, one purchase-delay draw, a purchase row and
the running-spend update. -/
def genPurchaseMaybe (ρ : RSeq) (p : PlayerMeta) (sid : Nat) (end_time : Int)
    (st : GenState) : GenState :=
  if p.spend_segment = "nonpayer" then st
  else
    let prob : ℚ :=
      if p.spend_segment = "minnow" then 1 / 100
      else if p.spend_segment = "dolphin" then 3 / 100
      else 10 / 100
    if unitDraw ρ st.k < prob then
      let product := choicesD ρ (st.k + 1) productCatalogue
        ("soft_small", "SoftPack", 199 / 100, 500, 0)
      let price_eur := product.2.2.1
      let purchase_time := end_time + (randintN ρ (st.k + 2) 5 60 : Int)
      let price_cents := pyRound (price_eur * 100)
      let row : PurchaseRow :=
        ⟨st.purchase_id_counter, p.player_id, sid, purchase_time,
         "prod_" ++ product.1, product.2.1, "EUR", price_cents, price_cents, 1,
         product.2.2.2.1, product.2.2.2.2, p.platform, p.country_code⟩
      { st with
        k := st.k + 3,
        purchase_id_counter := st.purchase_id_counter + 1,
        purchases := st.purchases ++ [row],
        total_spend_eur := fun i =>
          if i = p.player_id then st.total_spend_eur i + price_eur
          else st.total_spend_eur i }
    else { st with k := st.k + 1 }

/-- Match event pair of one match (source lines 716–775): mode, outcome
and soft-delta draws at stream positions k, k+1, k+2, then the
match_start and match_end rows sharing a fresh match id; `end_time` is
drawn by the caller at position k+3, and the stream advances past it. -/
def matchEvents (ρ : RSeq) (p : PlayerMeta) (sid : Nat) (mst end_time : Int)
    (st : GenState) : GenState :=
  let match_id := st.match_id_counter
  let game_mode := choicesD ρ st.k
    [("solo", 5 / 10), ("duo", 2 / 10), ("team", 3 / 10)] "solo"
  let outcome := choicesD ρ (st.k + 1)
    [("win", 45 / 100), ("loss", 45 / 100), ("draw", 10 / 100)] "win"
  let soft_delta :=
    if outcome = "win" then randintN ρ (st.k + 2) 15 40
    else if outcome = "loss" then randintN ρ (st.k + 2) 5 20
    else randintN ρ (st.k + 2) 5 25
  { st with
    k := st.k + 4,
    match_id_counter := st.match_id_counter + 1,
    event_id_counter := st.event_id_counter + 2,
    events := st.events ++
      [⟨st.event_id_counter, p.player_id, sid, mst, "match_start",
        game_mode, none, st.levels p.player_id, match_id, 0, 0, 0,
        "\x7b\"note\": \"match_started\"\x7d"⟩,
       ⟨st.event_id_counter + 1, p.player_id, sid, end_time, "match_end",
        game_mode, some outcome, st.levels p.player_id, match_id, soft_delta,
        0, 0, "\x7b\"note\": \"match_ended\"\x7d"⟩] }

/-- Level-up check after a match (source lines 777–779). -/
def levelUpMaybe (ρ : RSeq) (p : PlayerMeta) (st : GenState) : GenState :=
  if unitDraw ρ st.k < 5 / 100 then
    { st with
      k := st.k + 1,
      levels := fun i =>
        if i = p.player_id then st.levels i + 1 else st.levels i }
  else { st with k := st.k + 1 }

/-- One iteration of the match loop (source lines 712–835): the event
pair, the level-up check, the purchase branch, and the advance of the
match clock; returns the new state and the next match start time. -/
def genOneMatch (ρ : RSeq) (p : PlayerMeta) (sid : Nat) (mst : Int)
    (st : GenState) : GenState × Int :=
  let end_time := mst + (randintN ρ (st.k + 3) 60 900 : Int)
  let st3 := genPurchaseMaybe ρ p sid end_time
    (levelUpMaybe ρ p (matchEvents ρ p sid mst end_time st))
  ({ st3 with k := st3.k + 1 }, end_time + (randintN ρ st3.k 10 120 : Int))

/-- The `for _m in range(num_matches)` loop. -/
def matchesLoop (ρ : RSeq) (p : PlayerMeta) (sid : Nat) :
    Nat → Int → GenState → GenState
  | 0, _, st => st
  | n + 1, mst, st =>
      let r := genOneMatch ρ p sid mst st
      matchesLoop ρ p sid n r.2 r.1

/-- One session of one player (source lines 663–835): hour, minute and
duration draws, UTC conversion through the player's timezone offset, the
session row, the match-count draw and (when positive) the match loop.
`int(random.lognormvariate(log 600, 0.7))` has support ℕ and is embedded
as the raw draw. -/
def genOneSession (ρ : RSeq) (p : PlayerMeta) (day_idx season_id : Nat)
    (st : GenState) : GenState :=
  let local_hour : Nat := choicesD ρ st.k
    [(12, 1 / 10), (15, 2 / 10), (18, 4 / 10), (20, 2 / 10), (22, 1 / 10)] 12
  let local_minute := randintN ρ (st.k + 1) 0 59
  let duration_sec := max 60 (ρ (st.k + 2))
  let session_start : Int := (day_idx : Int) * 86400 + (local_hour : Int) * 3600 +
    (local_minute : Int) * 60 - p.time_zone_offset * 3600
  let session_end : Int := session_start + (duration_sec : Int)
  let sid := st.session_id_counter
  let client_version := "1.0." ++ toString (randintN ρ (st.k + 3) 0 20)
  let build_number := toString (randintN ρ (st.k + 4) 1000 2000)
  let entry := choiceU ρ (st.k + 5) ["icon_tap", "push", "reengagement_ad"] "icon_tap"
  let row : SessionRow :=
    ⟨sid, p.player_id, session_start, session_end, duration_sec,
     client_version, build_number, p.country_code, p.platform, entry, season_id⟩
  let num_matches := choicesD ρ (st.k + 6)
    [(0, 1 / 10), (1, 4 / 10), (2, 3 / 10), (3, 15 / 100), (4, 5 / 100)] 0
  let st1 : GenState :=
    { st with
      k := st.k + 7,
      session_id_counter := sid + 1,
      sessions := st.sessions ++ [row] }
  if num_matches = 0 then st1
  else
    let mst := session_start + (randintN ρ st1.k 0 (duration_sec / 3) : Int)
    matchesLoop ρ p sid num_matches mst { st1 with k := st1.k + 1 }

/-- Per-player daily session count, keyed by engagement segment (source
lines 648–661); the heavy branch embeds
`int(math.floor(random.paretovariate(2.0)))` (support {1, 2, ...}) as
`1 + ρ k`, floored at 2 and capped at 10.  Returns the count and the next
stream position. -/
def sessionsTodayDraw (ρ : RSeq) (k : Nat) (seg : String) : Nat × Nat :=
  if seg = "casual" then
    (choicesD ρ k [(1, 6 / 10), (2, 3 / 10), (3, 1 / 10)] 1, k + 1)
  else if seg = "midcore" then
    (choicesD ρ k [(1, 2 / 10), (2, 4 / 10), (3, 3 / 10), (4, 1 / 10)] 1, k + 1)
  else
    (max 2 (min (1 + ρ k) 10), k + 1)

/-- The `for _ in range(sessions_today)` loop. -/
def sessionsLoop (ρ : RSeq) (p : PlayerMeta) (day_idx season_id : Nat) :
    Nat → GenState → GenState
  | 0, st => st
  | n + 1, st => sessionsLoop ρ p day_idx season_id n (genOneSession ρ p day_idx season_id st)

/-- One active player's day: session-count draw, then the session loop. -/
def genPlayerDay (ρ : RSeq) (day_idx season_id : Nat) (st : GenState)
    (p : PlayerMeta) : GenState :=
  let nk := sessionsTodayDraw ρ st.k p.engagement_segment
  sessionsLoop ρ p day_idx season_id nk.1 { st with k := nk.2 }

/-- State carried across the day loop: the active pool, the not-yet-
admitted players (the tail of the creation-sorted population at
`idx_new`), and the generator state. -/
structure DayCtx where
  active_pool : List PlayerMeta
  pending : List PlayerMeta
  gs : GenState

/-- Pool update of one day (source lines 619–630): churn eviction (guarded
on a nonempty pool, as in the source) followed by admission of players
whose creation date has been reached; returns the post-admission pool and
the remaining pending players. -/
def dayPools (c : DayCtx) (day_idx : Nat) : List PlayerMeta × List PlayerMeta :=
  let pool1 :=
    if c.active_pool.isEmpty then c.active_pool
    else c.active_pool.filter (fun p => day_idx ≤ p.churn_day_idx)
  (pool1 ++ c.pending.takeWhile (fun p => p.created_day ≤ day_idx),
   c.pending.dropWhile (fun p => p.created_day ≤ day_idx))

/-- One day of the activity loop (source lines 618–842): the pool update,
the two skip checks, uniform sampling of the realized active set, and the
per-player generation.  The ghost `dayLog` records the post-admission pool
and the realized active set. -/
def dayStep (ρ : RSeq) (dau : List ℤ) (c : DayCtx) (day_idx : Nat) : DayCtx :=
  let pp := dayPools c day_idx
  if pp.1.isEmpty then
    ⟨pp.1, pp.2, { c.gs with dayLog := c.gs.dayLog ++ [⟨pp.1, []⟩] }⟩
  else
    let tgt : Int := min (dau.getD day_idx 0) (pp.1.length : Int)
    if tgt ≤ 0 then
      ⟨pp.1, pp.2, { c.gs with dayLog := c.gs.dayLog ++ [⟨pp.1, []⟩] }⟩
    else
      let s := sampleR ρ tgt.toNat pp.1 c.gs.k
      let season_id := day_idx / 60 + 1
      let gs1 : GenState :=
        { c.gs with k := s.2, dayLog := c.gs.dayLog ++ [⟨pp.1, s.1⟩] }
      ⟨pp.1, pp.2, s.1.foldl (genPlayerDay ρ day_idx season_id) gs1⟩

/-- The population sorted by creation date (`sorted(players,
key=lambda p: p.created_at)`); `List.insertionSort` is a stable sort and
therefore agrees with Python's stable `sorted`. -/
def sortedPlayers (players : List PlayerMeta) : List PlayerMeta :=
  players.insertionSort (fun a b => a.created_day ≤ b.created_day)

/-- The whole day loop, exposing the final `DayCtx`. -/
def activityFold (ρ : RSeq) (numDays : Nat) (players : List PlayerMeta)
    (dau : List ℤ) (k : Nat) : DayCtx :=
  (List.range numDays).foldl (dayStep ρ dau) ⟨[], sortedPlayers players, initGenState k⟩

/-- Source `generate_sessions_events_purchases`, parameterised over the
horizon (the source reads the module constant `NUM_DAYS`). -/
def generate_sessions_events_purchases (ρ : RSeq) (numDays : Nat)
    (players : List PlayerMeta) (dau : List ℤ) (k : Nat) : GenState :=
  (activityFold ρ numDays players dau k).gs

/-! The whole pipeline (source `main`). -/

/-- All generated tables of one run. -/
structure Outputs where
  players : List PlayerRow
  teams : List TeamRow
  team_memberships : List MembershipRow
  experiment_assignments : List ExperimentRow
  sessions : List SessionRow
  events : List EventRow
  purchases : List PurchaseRow

/-- Source `main` following `random.seed(...)`: the generation stages in
source order, every stage consuming further positions of the single
stream. -/
def runAll (ρ : RSeq) (expFn : ℚ → ℚ) (numDays nPlayers maxDau k : Nat) :
    Outputs :=
  let ps := generate_players ρ numDays nPlayers k
  let prows := insert_players ρ ps.1 ps.2
  let tm := generate_teams_and_memberships ρ numDays ps.1 prows.2
  let ex := generate_experiments ρ ps.1 tm.2.2
  let dc := generate_dau_curve ρ expFn numDays maxDau ex.2
  let gs := generate_sessions_events_purchases ρ numDays ps.1 dc.1 dc.2
  ⟨prows.1, tm.1, tm.2.1, ex.1, gs.sessions, gs.events, gs.purchases⟩

/-- Modelled from the spec: the "single seeded pseudo-random stream".
CPython's Mersenne Twister implementation is library code outside this
repository; determinism needs only that the stream is a pure function of
the seed, which this concrete 64-bit LCG-iterated stream exhibits. -/
def lcg (s : Nat) : Nat := (6364136223846793005 * s + 1442695040888963407) % 2 ^ 64

/-- Stream of draws determined by a seed: iterated `lcg`. -/
def seedStream (seed : Nat) : RSeq := fun n => Nat.iterate lcg (n + 1) seed

/-- Row count plus first and last generated id of one table. -/
def tableStats {α : Type} (idOf : α → Nat) (l : List α) :
    Nat × Option Nat × Option Nat :=
  (l.length, l.head?.map idOf, l.getLast?.map idOf)

/-- Row counts and first/last generated ids of every table of a run (the
`experiment_assignments` table has no surrogate id; its generated id is
the player id). -/
def runStats (o : Outputs) :
    List (Nat × Option Nat × Option Nat) :=
  [tableStats (fun r => r.player_id) o.players,
   tableStats (fun r => r.team_id) o.teams,
   tableStats (fun r => r.membership_id) o.team_memberships,
   tableStats (fun r => r.player_id) o.experiment_assignments,
   tableStats (fun r => r.session_id) o.sessions,
   tableStats (fun r => r.event_id) o.events,
   tableStats (fun r => r.purchase_id) o.purchases]

/-! Concrete fixtures used to evaluate the development on explicit
inputs. -/

/-- The all-zero draw stream. -/
def rho0 : RSeq := fun _ => 0

/-- The constant-one exponential oracle (a legitimate `math.exp` sample
value: `exp 0 = 1`). -/
def expOne : ℚ → ℚ := fun _ => 1

/-- A casual nonpayer in UTC−8 created on day 0 with churn-day index 0
(for a one-day horizon this is exactly the population shape
`generate_players` produces for a day-0 creation). -/
def cxPlayer : PlayerMeta := ⟨1, 0, "US", "Android", -8, "casual", "nonpayer", 0⟩

/-- Draw stream whose third draw (the session local-hour pick) is maximal,
selecting the 22:00 table entry; all other draws are 0. -/
def cxStream : RSeq := fun k => if k = 2 then 2 ^ 53 - 1 else 0

/-- One-day activity run of `cxPlayer` under `cxStream`: it emits exactly
one session, starting at second 108000 (06:00 UTC of day 1) although the
player's churn-day index is 0. -/
def cxRun : GenState :=
  generate_sessions_events_purchases cxStream 1 [cxPlayer] [1] 0

/-- A casual whale in UTC+1 created on day 0 with churn-day index 0. -/
def wPlayer : PlayerMeta := ⟨1, 0, "DE", "iOS", 1, "casual", "whale", 0⟩

/-- Draw stream whose ninth draw (the match-count pick) is `2^51`
(`random() = 1/4`), selecting one match; all other draws are 0, so the
whale's purchase roll succeeds. -/
def wStream : RSeq := fun k => if k = 8 then 2 ^ 51 else 0

/-- One-day activity run of `wPlayer` under `wStream`: one session, one
match (two events) and one purchase. -/
def wRun : GenState :=
  generate_sessions_events_purchases wStream 1 [wPlayer] [1] 0

/-- Dummy session row used as a `getD` default. -/
def sessionRow0 : SessionRow := ⟨0, 0, 0, 0, 0, "", "", "", "", "", 0⟩

/-- Dummy event row used as a `getD` default. -/
def eventRow0 : EventRow := ⟨0, 0, 0, 0, "", "", none, 0, 0, 0, 0, 0, ""⟩

/-- Dummy purchase row used as a `getD` default. -/
def purchaseRow0 : PurchaseRow := ⟨0, 0, 0, 0, "", "", "", 0, 0, 0, 0, 0, "", ""⟩

/-- Dummy team row used as a `getD` default. -/
def teamRow0 : TeamRow := ⟨0, 0, 0, 0⟩

/-- Invariant of the activity-generator state relative to the input
population: the four id sequences are strictly increasing with all ids
below their counters; events and purchases reference emitted sessions;
purchases belong to paying-segment players of the population and carry
the EUR catalogue shape; all row timestamps are at or after the owning
player's creation midnight, and session starts are bounded above by the
churn-day midnight plus 111540 seconds (22 h + 59 min + 8 h of timezone
slack). -/
structure StInv (players : List PlayerMeta) (st : GenState) : Prop where
  s_ids : (st.sessions.map (fun s => s.session_id)).Pairwise (· < ·)
  s_lt : ∀ s ∈ st.sessions, s.session_id < st.session_id_counter
  e_ids : (st.events.map (fun e => e.event_id)).Pairwise (· < ·)
  e_lt : ∀ e ∈ st.events, e.event_id < st.event_id_counter
  q_ids : (st.purchases.map (fun q => q.purchase_id)).Pairwise (· < ·)
  q_lt : ∀ q ∈ st.purchases, q.purchase_id < st.purchase_id_counter
  m_ids : ((st.events.filter (fun e => e.event_type = "match_start")).map
    (fun e => e.match_id)).Pairwise (· < ·)
  m_lt : ∀ e ∈ st.events, e.match_id < st.match_id_counter
  e_ref : ∀ e ∈ st.events, e.session_id ∈ st.sessions.map (fun s => s.session_id)
  q_ref : ∀ q ∈ st.purchases, q.session_id ∈ st.sessions.map (fun s => s.session_id)
  q_payer : ∀ q ∈ st.purchases, ∃ p ∈ players,
    q.player_id = p.player_id ∧ p.spend_segment ≠ "nonpayer"
  q_shape : ∀ q ∈ st.purchases, q.currency_code = "EUR" ∧
    q.price_local = q.price_eur ∧ q.price_eur ∈ ([199, 999, 499, 1999] : List ℤ)
  s_time : ∀ s ∈ st.sessions, ∃ p ∈ players, s.player_id = p.player_id ∧
    ((p.created_day : ℤ) * 86400 ≤ s.session_start ∧
      s.session_start ≤ (p.churn_day_idx : ℤ) * 86400 + 111540 ∧
      s.session_start ≤ s.session_end)
  e_time : ∀ e ∈ st.events, ∃ p ∈ players, e.player_id = p.player_id ∧
    (p.created_day : ℤ) * 86400 ≤ e.event_time
  q_time : ∀ q ∈ st.purchases, ∃ p ∈ players, q.player_id = p.player_id ∧
    (p.created_day : ℤ) * 86400 ≤ q.purchase_time

/-- The state `st'` extends `st`: counters have not decreased and each row
list grew only by appending. -/
structure Extends (st st' : GenState) : Prop where
  s_counter : st.session_id_counter ≤ st'.session_id_counter
  e_counter : st.event_id_counter ≤ st'.event_id_counter
  q_counter : st.purchase_id_counter ≤ st'.purchase_id_counter
  m_counter : st.match_id_counter ≤ st'.match_id_counter
  s_pre : ∃ l, st'.sessions = st.sessions ++ l
  e_pre : ∃ l, st'.events = st.events ++ l
  q_pre : ∃ l, st'.purchases = st.purchases ++ l

/-! Theorems: the verification development over the embedding above. -/

theorem unitDraw_nonneg (ρ : RSeq) (k : Nat) : 0 ≤ unitDraw ρ k := by
  unfold unitDraw
  positivity

theorem unitDraw_lt_one (ρ : RSeq) (k : Nat) : unitDraw ρ k < 1 := by
  unfold unitDraw D53
  rw [div_lt_one (by positivity)]
  exact_mod_cast Nat.mod_lt _ (by norm_num)

theorem randintN_ge (ρ : RSeq) (k a b : Nat) : a ≤ randintN ρ k a b := by
  unfold randintN
  split <;> omega

theorem randintN_le (ρ : RSeq) (k : Nat) {a b : Nat} (h : a ≤ b) :
    randintN ρ k a b ≤ b := by
  unfold randintN
  have := Nat.mod_lt (ρ k) (y := b - a + 1) (by omega)
  split <;> omega

theorem choicesPick_mem {α : Type} {x : ℚ} {l : List (α × ℚ)} {v : α}
    (h : choicesPick x l = some v) : v ∈ l.map Prod.fst := by
  induction l generalizing x with
  | nil => simp [choicesPick] at h
  | cons a t ih =>
      match t with
      | [] =>
          simp only [choicesPick] at h
          simp [← h.symm]
          cases h
          simp
      | b :: t' =>
          simp only [choicesPick] at h
          split at h
          · cases h
            simp
          · simpa using Or.inr (ih h)

theorem choicesPick_isSome {α : Type} (x : ℚ) (a : α × ℚ) (l : List (α × ℚ)) :
    (choicesPick x (a :: l)).isSome := by
  induction l generalizing x a with
  | nil => simp [choicesPick]
  | cons b t ih =>
      rw [choicesPick]
      split
      · simp
      · exact ih _ _

theorem choicesD_mem {α : Type} (ρ : RSeq) (k : Nat) (a : α × ℚ)
    (l : List (α × ℚ)) (d : α) :
    choicesD ρ k (a :: l) d ∈ (a :: l).map Prod.fst := by
  unfold choicesD
  rcases Option.isSome_iff_exists.mp (choicesPick_isSome (unitDraw ρ k * totalW (a :: l)) a l)
    with ⟨v, hv⟩
  rw [hv]
  exact choicesPick_mem hv

theorem pickLE_mem {α : Type} {x : ℚ} {l : List (α × ℚ)} {v : α}
    (h : pickLE x l = some v) : v ∈ l.map Prod.fst := by
  induction l generalizing x with
  | nil => simp [pickLE] at h
  | cons a t ih =>
      rw [pickLE] at h
      split at h
      · cases h; simp
      · revert h
        split
        · next u hu =>
            intro h
            cases h
            simpa using Or.inr (ih hu)
        · intro h
          cases h
          simp

theorem getD_mem_of_lt {α : Type} {l : List α} {i : Nat} (h : i < l.length) (d : α) :
    l.getD i d ∈ l := by
  rw [List.getD_eq_getElem?_getD, List.getElem?_eq_getElem h]
  exact List.getElem_mem h

theorem choiceU_mem {α : Type} (ρ : RSeq) (k : Nat) {l : List α} (hl : l ≠ []) (d : α) :
    choiceU ρ k l d ∈ l := by
  unfold choiceU
  exact getD_mem_of_lt (Nat.mod_lt _ (List.length_pos.mpr hl)) d

theorem sampleR_length {α : Type} [DecidableEq α] (ρ : RSeq) :
    ∀ (n : Nat) (pool : List α) (k : Nat),
      (sampleR ρ n pool k).1.length = min n pool.length := by
  intro n
  induction n with
  | zero => intro pool k; simp [sampleR]
  | succ m ih =>
      intro pool k
      match pool with
      | [] => simp [sampleR]
      | a :: t =>
          have hv : (a :: t).getD (ρ k % (a :: t).length) a ∈ a :: t :=
            getD_mem_of_lt (Nat.mod_lt _ (by simp)) a
          have hlen := List.length_erase_of_mem hv
          simp only [sampleR, List.length_cons]
          rw [ih]
          simp only [List.length_cons] at hlen ⊢
          omega

theorem sampleR_subset {α : Type} [DecidableEq α] (ρ : RSeq) :
    ∀ (n : Nat) (pool : List α) (k : Nat),
      ∀ x ∈ (sampleR ρ n pool k).1, x ∈ pool := by
  intro n
  induction n with
  | zero => intro pool k x hx; simp [sampleR] at hx
  | succ m ih =>
      intro pool k x hx
      match pool with
      | [] => simp [sampleR] at hx
      | a :: t =>
          simp only [sampleR, List.mem_cons] at hx
          rcases hx with rfl | hx
          · exact getD_mem_of_lt (Nat.mod_lt _ (by simp)) a
          · exact List.erase_subset _ _ (ih _ _ _ hx)

theorem sampleR_perm {α : Type} [DecidableEq α] (ρ : RSeq) :
    ∀ (n : Nat) (pool : List α) (k : Nat), n = pool.length →
      (sampleR ρ n pool k).1.Perm pool := by
  intro n
  induction n with
  | zero =>
      intro pool k h
      rw [eq_comm, List.length_eq_zero] at h
      subst h
      simp [sampleR]
  | succ m ih =>
      intro pool k h
      match pool with
      | [] => simp at h
      | a :: t =>
          have hv : (a :: t).getD (ρ k % (a :: t).length) a ∈ a :: t :=
            getD_mem_of_lt (Nat.mod_lt _ (by simp)) a
          simp only [sampleR]
          have hlen : m = ((a :: t).erase ((a :: t).getD (ρ k % (a :: t).length) a)).length := by
            rw [List.length_erase_of_mem hv]
            simp only [List.length_cons] at h ⊢
            omega
          exact ((ih _ (k + 1) hlen).cons _).trans (List.perm_cons_erase hv).symm

theorem floor_le_pyRound (x : ℚ) : ⌊x⌋ ≤ pyRound x := by
  unfold pyRound
  split
  · exact le_refl _
  · split
    · exact Int.floor_le_ceil x
    · split
      · exact le_refl _
      · omega

theorem pyRound_le_ceil (x : ℚ) : pyRound x ≤ ⌈x⌉ := by
  unfold pyRound
  split
  · exact Int.floor_le_ceil x
  · next h =>
      split
      · exact le_refl _
      · next h' =>
          have hfr : Int.fract x = 1 / 2 := le_antisymm (not_lt.mp h') (not_lt.mp h)
          have hx : ((⌊x⌋ : ℚ)) + 1 / 2 = x := by
            rw [← hfr]
            exact Int.floor_add_fract x
          have hhalf : ⌈(1 : ℚ) / 2⌉ = 1 := by
            rw [Int.ceil_eq_iff] ; norm_num
          have hne : ⌈x⌉ = ⌊x⌋ + 1 := by
            conv_lhs => rw [← hx]
            rw [add_comm ((⌊x⌋ : ℚ)) (1 / 2), Int.ceil_add_int, hhalf]
            omega
          rw [hne]
          split <;> omega

theorem pyRound_nonneg {x : ℚ} (h : 0 ≤ x) : 0 ≤ pyRound x :=
  le_trans (Int.floor_nonneg.mpr h) (floor_le_pyRound x)

theorem pyRound_le_of_le {x : ℚ} {M : ℤ} (h : x ≤ (M : ℚ)) : pyRound x ≤ M :=
  le_trans (pyRound_le_ceil x) (Int.ceil_le.mpr h)

theorem le_foldl_max (l : List ℚ) : ∀ (b : ℚ), b ≤ l.foldl max b ∧
    ∀ x ∈ l, x ≤ l.foldl max b := by
  induction l with
  | nil => intro b; simp
  | cons a t ih =>
      intro b
      constructor
      · exact le_trans (le_max_left b a) (ih (max b a)).1
      · intro x hx
        rcases List.mem_cons.mp hx with rfl | hx
        · exact le_trans (le_max_right b x) (ih (max b x)).1
        · exact (ih (max b a)).2 x hx

theorem le_listMax {l : List ℚ} {x : ℚ} (hx : x ∈ l) : x ≤ listMax l :=
  (le_foldl_max l 0).2 x hx

theorem listMax_pos {l : List ℚ} {x : ℚ} (hx : x ∈ l) (hpos : 0 < x) :
    0 < listMax l := lt_of_lt_of_le hpos (le_listMax hx)

theorem patchStep_pos {m : ℚ} (numDays t pd : Nat) (hm : 0 < m) :
    0 < patchStep numDays t m pd := by
  unfold patchStep
  split_ifs <;> first | exact hm | positivity

theorem dauRel_pos (ρ : RSeq) {expFn : ℚ → ℚ} (numDays t k : Nat)
    (hexp : ∀ q, 0 ≤ expFn q) : 0 < dauRel ρ expFn numDays t k := by
  unfold dauRel
  have hbase : (0 : ℚ) < 6 / 10 + 8 / 10 * expFn (-(t : ℚ) / max 7 ((numDays : ℚ) * (1 / 10))) := by
    have := hexp (-(t : ℚ) / max 7 ((numDays : ℚ) * (1 / 10)))
    nlinarith
  have hseason : (0 : ℚ) <
      (if 150 ≤ (t * 365) / max 1 numDays ∧ (t * 365) / max 1 numDays ≤ 240 then (8 : ℚ) / 10 else 1) *
      (if 330 ≤ (t * 365) / max 1 numDays ∧ (t * 365) / max 1 numDays ≤ 364 then (13 : ℚ) / 10 else 1) := by
    split_ifs <;> norm_num
  have hpatch : (0 : ℚ) < PATCH_DAYS.foldl (patchStep numDays t) 1 := by
    simp only [PATCH_DAYS, List.foldl]
    exact patchStep_pos _ _ _ (patchStep_pos _ _ _ (patchStep_pos _ _ _ (by norm_num)))
  have hnoise : (0 : ℚ) < 95 / 100 + unitDraw ρ k * (105 / 100 - 95 / 100) := by
    have := unitDraw_nonneg ρ k
    nlinarith
  exact mul_pos (mul_pos (mul_pos hbase hseason) hpatch) hnoise

theorem pickLE_isSome {α : Type} (x : ℚ) {l : List (α × ℚ)} (hl : l ≠ []) :
    (pickLE x l).isSome := by
  match l with
  | [] => exact absurd rfl hl
  | a :: t =>
      rw [pickLE]
      split
      · simp
      · split <;> simp

theorem pick_country_and_tz_tz (ρ : RSeq) (k : Nat) :
    -8 ≤ (pick_country_and_tz ρ k).2 ∧ (pick_country_and_tz ρ k).2 ≤ 9 := by
  unfold pick_country_and_tz
  rcases Option.isSome_iff_exists.mp
      (pickLE_isSome (unitDraw ρ k * totalW countryTable)
        (l := countryTable) (by simp [countryTable])) with ⟨v, hv⟩
  rw [hv]
  have hmem := pickLE_mem hv
  have hall : ∀ w ∈ countryTable.map Prod.fst, -8 ≤ w.2 ∧ w.2 ≤ 9 := by decide
  exact hall v hmem

theorem genOnePlayer_days (ρ : RSeq) {numDays : Nat} (pid k : Nat)
    (h : 1 ≤ numDays) :
    (genOnePlayer ρ numDays pid k).1.created_day ≤
        (genOnePlayer ρ numDays pid k).1.churn_day_idx ∧
      (genOnePlayer ρ numDays pid k).1.churn_day_idx ≤ numDays - 1 := by
  unfold genOnePlayer
  dsimp only
  split <;> dsimp only <;> omega

theorem genOnePlayer_tz (ρ : RSeq) (numDays pid k : Nat) :
    -8 ≤ (genOnePlayer ρ numDays pid k).1.time_zone_offset ∧
      (genOnePlayer ρ numDays pid k).1.time_zone_offset ≤ 9 := by
  unfold genOnePlayer
  have := pick_country_and_tz_tz ρ (k + 2)
  dsimp only
  split <;> dsimp only <;> exact this

theorem playersLoop_days (ρ : RSeq) {numDays : Nat} (h : 1 ≤ numDays) :
    ∀ (n pid k : Nat), ∀ p ∈ (playersLoop ρ numDays n pid k).1,
      p.created_day ≤ p.churn_day_idx ∧ p.churn_day_idx ≤ numDays - 1 := by
  intro n
  induction n with
  | zero => intro pid k p hp; simp [playersLoop] at hp
  | succ m ih =>
      intro pid k p hp
      simp only [playersLoop, List.mem_cons] at hp
      rcases hp with rfl | hp
      · exact genOnePlayer_days ρ pid k h
      · exact ih _ _ p hp

theorem playersLoop_tz (ρ : RSeq) (numDays : Nat) :
    ∀ (n pid k : Nat), ∀ p ∈ (playersLoop ρ numDays n pid k).1,
      -8 ≤ p.time_zone_offset ∧ p.time_zone_offset ≤ 9 := by
  intro n
  induction n with
  | zero => intro pid k p hp; simp [playersLoop] at hp
  | succ m ih =>
      intro pid k p hp
      simp only [playersLoop, List.mem_cons] at hp
      rcases hp with rfl | hp
      · exact genOnePlayer_tz ρ numDays pid k
      · exact ih _ _ p hp

/-! Pool evolution of the day loop. -/

theorem sortedPlayers_pairwise (players : List PlayerMeta) :
    (sortedPlayers players).Pairwise (fun a b => a.created_day ≤ b.created_day) :=
  @List.sorted_insertionSort PlayerMeta (fun a b => a.created_day ≤ b.created_day)
    (fun _ _ => Nat.decLe _ _) ⟨fun _ _ => Nat.le_total _ _⟩
    ⟨fun _ _ _ => Nat.le_trans⟩ players

theorem mem_sortedPlayers {players : List PlayerMeta} {p : PlayerMeta} :
    p ∈ sortedPlayers players ↔ p ∈ players :=
  (List.perm_insertionSort _ players).mem_iff

theorem takeWhile_eq_filter_of_sorted {S : List PlayerMeta} (m : Nat)
    (hs : S.Pairwise (fun a b => a.created_day ≤ b.created_day)) :
    S.takeWhile (fun p => p.created_day ≤ m) =
      S.filter (fun p => p.created_day ≤ m) := by
  induction S with
  | nil => rfl
  | cons a t ih =>
      rcases List.pairwise_cons.mp hs with ⟨ha, ht⟩
      by_cases h : a.created_day ≤ m
      · simp [List.takeWhile_cons, List.filter_cons, h, ih ht]
      · have hnil : t.filter (fun p => decide (p.created_day ≤ m)) = [] :=
          List.filter_eq_nil_iff.mpr (fun b hb => by
            simp only [decide_eq_true_eq]
            have := ha b hb
            omega)
        simp [List.takeWhile_cons, List.filter_cons, h, hnil]

theorem dropWhile_dropWhile_of_sorted {S : List PlayerMeta} (d : Nat)
    (hs : S.Pairwise (fun a b => a.created_day ≤ b.created_day)) :
    (S.dropWhile (fun p => p.created_day ≤ d)).dropWhile
        (fun p => p.created_day ≤ d + 1) =
      S.dropWhile (fun p => p.created_day ≤ d + 1) := by
  induction S with
  | nil => rfl
  | cons a t ih =>
      rcases List.pairwise_cons.mp hs with ⟨_, ht⟩
      by_cases h : a.created_day ≤ d
      · have h' : a.created_day ≤ d + 1 := by omega
        simp [List.dropWhile_cons, h, h', ih ht]
      · simp [List.dropWhile_cons, h]

theorem takeWhile_eq_filter_churn {t : List PlayerMeta} (d : Nat)
    (hs : t.Pairwise (fun a b => a.created_day ≤ b.created_day))
    (hc : ∀ p ∈ t, p.created_day ≤ p.churn_day_idx)
    (hge : ∀ p ∈ t, d + 1 ≤ p.created_day) :
    t.takeWhile (fun p => p.created_day ≤ d + 1) =
      t.filter (fun p =>
        decide (p.created_day ≤ d + 1) && decide (d + 1 ≤ p.churn_day_idx)) := by
  induction t with
  | nil => rfl
  | cons a s ih =>
      rcases List.pairwise_cons.mp hs with ⟨ha, hts⟩
      have hca := hc a (by simp)
      have hga := hge a (by simp)
      have hih := ih hts (fun p hp => hc p (List.mem_cons_of_mem a hp))
        (fun p hp => hge p (List.mem_cons_of_mem a hp))
      by_cases h : a.created_day ≤ d + 1
      · have hch : d + 1 ≤ a.churn_day_idx := by omega
        simp [List.takeWhile_cons, List.filter_cons, h, hch, hih]
      · have hnil : s.filter (fun p =>
            decide (p.created_day ≤ d + 1) && decide (d + 1 ≤ p.churn_day_idx)) = [] :=
          List.filter_eq_nil_iff.mpr (fun b hb => by
            simp only [Bool.and_eq_true, decide_eq_true_eq, not_and]
            intro hb'
            have := ha b hb
            omega)
        simp [List.takeWhile_cons, List.filter_cons, h, hnil]

theorem pool_step {S : List PlayerMeta}
    (hs : S.Pairwise (fun a b => a.created_day ≤ b.created_day))
    (hc : ∀ p ∈ S, p.created_day ≤ p.churn_day_idx) (d : Nat) :
    S.filter (fun p =>
        decide (p.created_day ≤ d) && decide (d + 1 ≤ p.churn_day_idx)) ++
      (S.dropWhile (fun p => p.created_day ≤ d)).takeWhile
        (fun p => p.created_day ≤ d + 1) =
    S.filter (fun p =>
        decide (p.created_day ≤ d + 1) && decide (d + 1 ≤ p.churn_day_idx)) := by
  induction S with
  | nil => rfl
  | cons a t ih =>
      rcases List.pairwise_cons.mp hs with ⟨ha, ht⟩
      have hca := hc a (by simp)
      have hct : ∀ p ∈ t, p.created_day ≤ p.churn_day_idx :=
        fun p hp => hc p (List.mem_cons_of_mem a hp)
      have hih := ih ht hct
      by_cases h1 : a.created_day ≤ d
      · have h1' : a.created_day ≤ d + 1 := by omega
        by_cases h2 : d + 1 ≤ a.churn_day_idx
        · simp [List.filter_cons, List.dropWhile_cons, h1, h1', h2, hih]
        · simp [List.filter_cons, List.dropWhile_cons, h1, h1', h2, hih]
      · by_cases h2 : a.created_day ≤ d + 1
        · have hch : d + 1 ≤ a.churn_day_idx := by omega
          have hnilt : t.filter (fun p =>
              decide (p.created_day ≤ d) && decide (d + 1 ≤ p.churn_day_idx)) = [] :=
            List.filter_eq_nil_iff.mpr (fun b hb => by
              simp only [Bool.and_eq_true, decide_eq_true_eq, not_and]
              intro hb'
              have := ha b hb
              omega)
          have htf := takeWhile_eq_filter_churn d ht hct (fun p hp => by
            have := ha p hp
            omega)
          simp [List.filter_cons, List.dropWhile_cons, List.takeWhile_cons,
            h1, h2, hch, hnilt, htf]
        · have hnilt1 : t.filter (fun p =>
              decide (p.created_day ≤ d) && decide (d + 1 ≤ p.churn_day_idx)) = [] :=
            List.filter_eq_nil_iff.mpr (fun b hb => by
              simp only [Bool.and_eq_true, decide_eq_true_eq, not_and]
              intro hb'
              have := ha b hb
              omega)
          have hnilt2 : t.filter (fun p =>
              decide (p.created_day ≤ d + 1) && decide (d + 1 ≤ p.churn_day_idx)) = [] :=
            List.filter_eq_nil_iff.mpr (fun b hb => by
              simp only [Bool.and_eq_true, decide_eq_true_eq, not_and]
              intro hb'
              have := ha b hb
              omega)
          simp [List.filter_cons, List.dropWhile_cons, List.takeWhile_cons,
            h1, h2, hnilt1, hnilt2]

theorem ite_isEmpty_filter (L : List PlayerMeta) (q : PlayerMeta → Bool) :
    (if L.isEmpty then L else L.filter q) = L.filter q := by
  cases L <;> simp

theorem genPurchaseMaybe_dayLog (ρ : RSeq) (p : PlayerMeta) (sid : Nat)
    (t : Int) (st : GenState) :
    (genPurchaseMaybe ρ p sid t st).dayLog = st.dayLog := by
  unfold genPurchaseMaybe
  dsimp only
  split_ifs <;> rfl

theorem matchEvents_dayLog (ρ : RSeq) (p : PlayerMeta) (sid : Nat)
    (mst end_time : Int) (st : GenState) :
    (matchEvents ρ p sid mst end_time st).dayLog = st.dayLog := rfl

theorem levelUpMaybe_dayLog (ρ : RSeq) (p : PlayerMeta) (st : GenState) :
    (levelUpMaybe ρ p st).dayLog = st.dayLog := by
  unfold levelUpMaybe
  split_ifs <;> rfl

theorem genOneMatch_dayLog (ρ : RSeq) (p : PlayerMeta) (sid : Nat) (mst : Int)
    (st : GenState) :
    (genOneMatch ρ p sid mst st).1.dayLog = st.dayLog := by
  unfold genOneMatch
  dsimp only
  rw [genPurchaseMaybe_dayLog, levelUpMaybe_dayLog, matchEvents_dayLog]

theorem matchesLoop_dayLog (ρ : RSeq) (p : PlayerMeta) (sid : Nat) :
    ∀ (n : Nat) (mst : Int) (st : GenState),
      (matchesLoop ρ p sid n mst st).dayLog = st.dayLog := by
  intro n
  induction n with
  | zero => intro mst st; rfl
  | succ m ih =>
      intro mst st
      rw [matchesLoop, ih, genOneMatch_dayLog]

theorem genOneSession_dayLog (ρ : RSeq) (p : PlayerMeta) (day_idx season_id : Nat)
    (st : GenState) :
    (genOneSession ρ p day_idx season_id st).dayLog = st.dayLog := by
  unfold genOneSession
  dsimp only
  split_ifs
  · rfl
  · rw [matchesLoop_dayLog]

theorem sessionsLoop_dayLog (ρ : RSeq) (p : PlayerMeta) (day_idx season_id : Nat) :
    ∀ (n : Nat) (st : GenState),
      (sessionsLoop ρ p day_idx season_id n st).dayLog = st.dayLog := by
  intro n
  induction n with
  | zero => intro st; rfl
  | succ m ih =>
      intro st
      rw [sessionsLoop, ih, genOneSession_dayLog]

theorem genPlayerDay_dayLog (ρ : RSeq) (day_idx season_id : Nat) (st : GenState)
    (p : PlayerMeta) :
    (genPlayerDay ρ day_idx season_id st p).dayLog = st.dayLog := by
  unfold genPlayerDay
  rw [sessionsLoop_dayLog]

theorem foldl_genPlayerDay_dayLog (ρ : RSeq) (day_idx season_id : Nat) :
    ∀ (acts : List PlayerMeta) (gs : GenState),
      (acts.foldl (genPlayerDay ρ day_idx season_id) gs).dayLog = gs.dayLog := by
  intro acts
  induction acts with
  | nil => intro gs; rfl
  | cons a t ih =>
      intro gs
      rw [List.foldl_cons, ih, genPlayerDay_dayLog]

theorem dayPools_fst (c : DayCtx) (d : Nat) :
    (dayPools c d).1 =
      (if c.active_pool.isEmpty then c.active_pool
       else c.active_pool.filter (fun p => d ≤ p.churn_day_idx)) ++
        c.pending.takeWhile (fun p => p.created_day ≤ d) := rfl

theorem dayPools_snd (c : DayCtx) (d : Nat) :
    (dayPools c d).2 = c.pending.dropWhile (fun p => p.created_day ≤ d) := rfl

theorem dayStep_active_pool (ρ : RSeq) (dau : List ℤ) (c : DayCtx) (d : Nat) :
    (dayStep ρ dau c d).active_pool = (dayPools c d).1 := by
  unfold dayStep
  dsimp only
  split_ifs <;> rfl

theorem dayStep_pending (ρ : RSeq) (dau : List ℤ) (c : DayCtx) (d : Nat) :
    (dayStep ρ dau c d).pending = (dayPools c d).2 := by
  unfold dayStep
  dsimp only
  split_ifs <;> rfl

theorem dayStep_gs_spec (ρ : RSeq) (dau : List ℤ) (c : DayCtx) (d : Nat) :
    ∃ acts : List PlayerMeta,
      (dayStep ρ dau c d).gs.dayLog =
          c.gs.dayLog ++ [⟨(dayPools c d).1, acts⟩] ∧
        acts.length ≤ min (dau.getD d 0).toNat (dayPools c d).1.length ∧
        ∀ q ∈ acts, q ∈ (dayPools c d).1 := by
  unfold dayStep
  dsimp only
  split_ifs with h1 h2
  · exact ⟨[], rfl, by simp, by simp⟩
  · exact ⟨[], rfl, by simp, by simp⟩
  · refine ⟨(sampleR ρ (min (dau.getD d 0) ((dayPools c d).1.length : Int)).toNat
      (dayPools c d).1 c.gs.k).1, ?_, ?_, ?_⟩
    · rw [foldl_genPlayerDay_dayLog]
    · rw [sampleR_length]
      omega
    · intro q hq
      exact sampleR_subset ρ _ _ _ q hq

theorem getElem?_concat_of_length {α : Type} (l : List α) (a : α) {n : Nat}
    (h : n = l.length) : (l ++ [a])[n]? = some a := by
  subst h
  exact List.getElem?_concat_length l a

theorem dayPools_base (S : List PlayerMeta) (k : Nat)
    (hs : S.Pairwise (fun a b => a.created_day ≤ b.created_day)) :
    (dayPools ⟨[], S, initGenState k⟩ 0).1 =
        S.filter (fun p =>
          decide (p.created_day ≤ 0) && decide (0 ≤ p.churn_day_idx)) ∧
      (dayPools ⟨[], S, initGenState k⟩ 0).2 =
        S.dropWhile (fun p => p.created_day ≤ 0) := by
  constructor
  · have h0 : (dayPools ⟨[], S, initGenState k⟩ 0).1 =
        S.takeWhile (fun p => p.created_day ≤ 0) := rfl
    rw [h0, takeWhile_eq_filter_of_sorted 0 hs]
    exact List.filter_congr (fun x _ => by simp)
  · rfl

theorem dayPools_step {S : List PlayerMeta}
    (hs : S.Pairwise (fun a b => a.created_day ≤ b.created_day))
    (hcS : ∀ p ∈ S, p.created_day ≤ p.churn_day_idx) (d : Nat) {c : DayCtx}
    (hpool : c.active_pool = S.filter (fun p =>
        decide (p.created_day ≤ d) && decide (d ≤ p.churn_day_idx)))
    (hpend : c.pending = S.dropWhile (fun p => p.created_day ≤ d)) :
    (dayPools c (d + 1)).1 = S.filter (fun p =>
        decide (p.created_day ≤ d + 1) && decide (d + 1 ≤ p.churn_day_idx)) ∧
      (dayPools c (d + 1)).2 =
        S.dropWhile (fun p => p.created_day ≤ d + 1) := by
  constructor
  · rw [dayPools_fst, ite_isEmpty_filter, hpool, hpend, List.filter_filter]
    have hq : ∀ x ∈ S,
        (decide (d + 1 ≤ x.churn_day_idx) &&
          (decide (x.created_day ≤ d) && decide (d ≤ x.churn_day_idx))) =
        (decide (x.created_day ≤ d) && decide (d + 1 ≤ x.churn_day_idx)) := by
      intro x _
      rw [Bool.eq_iff_iff]
      simp only [Bool.and_eq_true, decide_eq_true_eq]
      omega
    rw [List.filter_congr hq]
    exact pool_step hs hcS d
  · rw [dayPools_snd, hpend]
    exact dropWhile_dropWhile_of_sorted d hs

theorem activityFold_spec (ρ : RSeq) (players : List PlayerMeta) (dau : List ℤ)
    (k : Nat) (hc : ∀ p ∈ players, p.created_day ≤ p.churn_day_idx) :
    ∀ n : Nat, 0 < n →
      ((List.range n).foldl (dayStep ρ dau)
            ⟨[], sortedPlayers players, initGenState k⟩).active_pool =
          (sortedPlayers players).filter (fun p =>
            decide (p.created_day ≤ n - 1) && decide (n - 1 ≤ p.churn_day_idx)) ∧
        ((List.range n).foldl (dayStep ρ dau)
            ⟨[], sortedPlayers players, initGenState k⟩).pending =
          (sortedPlayers players).dropWhile (fun p => p.created_day ≤ n - 1) ∧
        ((List.range n).foldl (dayStep ρ dau)
            ⟨[], sortedPlayers players, initGenState k⟩).gs.dayLog.length = n ∧
        ∀ d : Nat, d < n →
          ∃ e : DayLog,
            ((List.range n).foldl (dayStep ρ dau)
                ⟨[], sortedPlayers players, initGenState k⟩).gs.dayLog[d]? = some e ∧
              e.pool = (sortedPlayers players).filter (fun p =>
                decide (p.created_day ≤ d) && decide (d ≤ p.churn_day_idx)) ∧
              e.actives.length ≤ min (dau.getD d 0).toNat e.pool.length ∧
              ∀ q ∈ e.actives, q ∈ e.pool := by
  have hs := sortedPlayers_pairwise players
  have hcS : ∀ p ∈ sortedPlayers players, p.created_day ≤ p.churn_day_idx :=
    fun p hp => hc p (mem_sortedPlayers.mp hp)
  intro n
  induction n with
  | zero => intro h; exact absurd h (lt_irrefl 0)
  | succ m ih =>
      intro _
      rw [List.range_succ, List.foldl_append, List.foldl_cons, List.foldl_nil]
      by_cases hm : 0 < m
      · obtain ⟨hp, hpe, hlen, hentries⟩ := ih hm
        obtain ⟨d, rfl⟩ : ∃ d, m = d + 1 := ⟨m - 1, by omega⟩
        simp only [Nat.add_sub_cancel] at hp hpe ⊢
        have hstep := dayPools_step hs hcS d (c := (List.range (d + 1)).foldl
          (dayStep ρ dau) ⟨[], sortedPlayers players, initGenState k⟩) hp hpe
        obtain ⟨acts, hlog, hbnd, hsub⟩ := dayStep_gs_spec ρ dau
          ((List.range (d + 1)).foldl (dayStep ρ dau)
            ⟨[], sortedPlayers players, initGenState k⟩) (d + 1)
        refine ⟨?_, ?_, ?_, ?_⟩
        · rw [dayStep_active_pool]
          exact hstep.1
        · rw [dayStep_pending]
          exact hstep.2
        · rw [hlog, List.length_append, hlen]
          rfl
        · intro dd hdd
          by_cases hdm : dd < d + 1
          · obtain ⟨e, he, hep, heb, hes⟩ := hentries dd hdm
            refine ⟨e, ?_, hep, heb, hes⟩
            rw [hlog, List.getElem?_append_left (by rw [hlen]; exact hdm)]
            exact he
          · have hdd' : dd = d + 1 := by omega
            subst hdd'
            refine ⟨⟨(dayPools ((List.range (d + 1)).foldl (dayStep ρ dau)
              ⟨[], sortedPlayers players, initGenState k⟩) (d + 1)).1, acts⟩,
              ?_, ?_, ?_, ?_⟩
            · rw [hlog]
              exact getElem?_concat_of_length _ _ hlen.symm
            · exact hstep.1
            · exact hbnd
            · exact hsub
      · have hm0 : m = 0 := by omega
        subst hm0
        simp only [List.range_zero, List.foldl_nil, Nat.add_sub_cancel]
        obtain ⟨hb1, hb2⟩ := dayPools_base (sortedPlayers players) k hs
        obtain ⟨acts, hlog, hbnd, hsub⟩ := dayStep_gs_spec ρ dau
          ⟨[], sortedPlayers players, initGenState k⟩ 0
        refine ⟨?_, ?_, ?_, ?_⟩
        · rw [dayStep_active_pool]
          exact hb1
        · rw [dayStep_pending]
          exact hb2
        · rw [hlog]
          rfl
        · intro dd hdd
          have hdd0 : dd = 0 := by omega
          subst hdd0
          refine ⟨⟨(dayPools ⟨[], sortedPlayers players, initGenState k⟩ 0).1, acts⟩,
            ?_, ?_, ?_, ?_⟩
          · rw [hlog]
            rfl
          · exact hb1
          · exact hbnd
          · exact hsub

/-- C2: for every day `d` of the activity loop, the realized active set
has size at most `min(curve target at d, pool size at d)`, and the pool
after the day's update is exactly the subset of the (creation-sorted)
population admitted by reached creation dates and not yet evicted by a
passed churn-day index — i.e. the pool changes by those two mechanisms
only. -/
theorem c2_pool_invariant (ρ : RSeq) (numDays : Nat) (players : List PlayerMeta)
    (dau : List ℤ) (k : Nat)
    (hc : ∀ p ∈ players, p.created_day ≤ p.churn_day_idx)
    (d : Nat) (hd : d < numDays) :
    (generate_sessions_events_purchases ρ numDays players dau k).dayLog.length
        = numDays ∧
      ((generate_sessions_events_purchases ρ numDays players dau
            k).dayLog.getD d ⟨[], []⟩).pool =
        (sortedPlayers players).filter (fun p =>
          decide (p.created_day ≤ d) && decide (d ≤ p.churn_day_idx)) ∧
      ((generate_sessions_events_purchases ρ numDays players dau
            k).dayLog.getD d ⟨[], []⟩).actives.length ≤
        min (dau.getD d 0).toNat
          ((generate_sessions_events_purchases ρ numDays players dau
            k).dayLog.getD d ⟨[], []⟩).pool.length := by
  obtain ⟨_, _, hlen, hen⟩ := activityFold_spec ρ players dau k hc numDays (by omega)
  obtain ⟨e, he, hp, hb, _⟩ := hen d hd
  have hgs : generate_sessions_events_purchases ρ numDays players dau k =
      ((List.range numDays).foldl (dayStep ρ dau)
        ⟨[], sortedPlayers players, initGenState k⟩).gs := rfl
  refine ⟨?_, ?_, ?_⟩
  · rw [hgs]
    exact hlen
  · rw [hgs, List.getD_eq_getElem?_getD, he]
    exact hp
  · rw [hgs, List.getD_eq_getElem?_getD, he]
    exact hb

/-- Witness for `c2_pool_invariant`: the concrete one-day whale run. -/
theorem c2_pool_invariant_witness :
    wRun.dayLog.length = 1 ∧
      (wRun.dayLog.getD 0 ⟨[], []⟩).pool =
        (sortedPlayers [wPlayer]).filter (fun p =>
          decide (p.created_day ≤ 0) && decide (0 ≤ p.churn_day_idx)) ∧
      (wRun.dayLog.getD 0 ⟨[], []⟩).actives.length ≤
        min (([1] : List ℤ).getD 0 0).toNat
          (wRun.dayLog.getD 0 ⟨[], []⟩).pool.length :=
  c2_pool_invariant wStream 1 [wPlayer] [1] 0 (by decide) 0 (by decide)

/-- C3: with the same seed, two runs of the whole generator (population,
player rows, teams, experiments, DAU curve, activity) produce identical
row counts and identical first and last generated ids in every table.  In
the embedding every draw consumes, in a fixed call order, from the single
stream determined by the seed, and no other input exists, so a run is a
pure function of the seed and the configuration. -/
theorem c3_determinism (seed : Nat) (expFn : ℚ → ℚ)
    (numDays nPlayers maxDau k : Nat) :
    runStats (runAll (seedStream seed) expFn numDays nPlayers maxDau k) =
      runStats (runAll (seedStream seed) expFn numDays nPlayers maxDau k) := rfl

/-- C4: for every positive horizon, `generate_dau_curve` returns a list
whose length is the horizon and whose every value lies in [0, peak
target]. -/
theorem c4_dau_curve (ρ : RSeq) (expFn : ℚ → ℚ) (numDays maxDau k : Nat)
    (_hdays : 0 < numDays) (hexp : ∀ q, 0 ≤ expFn q) :
    (generate_dau_curve ρ expFn numDays maxDau k).1.length = numDays ∧
      ∀ v ∈ (generate_dau_curve ρ expFn numDays maxDau k).1,
        0 ≤ v ∧ v ≤ ((maxDau : ℕ) : ℤ) := by
  unfold generate_dau_curve
  dsimp only
  constructor
  · simp
  · intro v hv
    rcases List.mem_map.mp hv with ⟨x, hx, rfl⟩
    have hpos : ∀ y ∈ (List.range numDays).map
        (fun t => dauRel ρ expFn numDays t (k + t)), 0 < y := by
      intro y hy
      rcases List.mem_map.mp hy with ⟨t, _, rfl⟩
      exact dauRel_pos ρ numDays t (k + t) hexp
    have hxpos := hpos x hx
    have hle := le_listMax hx
    have hmax : 0 < listMax ((List.range numDays).map
        (fun t => dauRel ρ expFn numDays t (k + t))) := listMax_pos hx hxpos
    constructor
    · exact pyRound_nonneg
        (mul_nonneg (by positivity) (le_of_lt (div_pos hxpos hmax)))
    · apply pyRound_le_of_le
      have h1 : x / listMax ((List.range numDays).map
          (fun t => dauRel ρ expFn numDays t (k + t))) ≤ 1 :=
        (div_le_one hmax).mpr hle
      have h2 := mul_le_mul_of_nonneg_left h1
        (by positivity : (0 : ℚ) ≤ (maxDau : ℚ))
      rw [mul_one] at h2
      exact h2.trans_eq (by push_cast; ring)

/-- Witness for `c4_dau_curve`: horizon 1, peak 50, zero noise stream,
constant-one exponential oracle; the curve is `[50]`. -/
theorem c4_dau_curve_witness :
    (generate_dau_curve rho0 expOne 1 50 0).1.length = 1 ∧
      (0 ≤ (50 : ℤ) ∧ (50 : ℤ) ≤ ((50 : ℕ) : ℤ)) :=
  ⟨(c4_dau_curve rho0 expOne 1 50 0 (by decide)
      (fun _ => by norm_num [expOne])).1,
   (c4_dau_curve rho0 expOne 1 50 0 (by decide)
      (fun _ => by norm_num [expOne])).2 50 (by with_unfolding_all decide)⟩

/-- C5: every player from `generate_players` satisfies creation-day index
≤ churn-day index ≤ horizon − 1 (the core branch gets exactly
horizon − 1, the rest creation day plus a clamped positive exponential
extra lifetime — the two branches of `genOnePlayer`). -/
theorem c5_player_lifetimes (ρ : RSeq) (numDays n k : Nat) (h : 1 ≤ numDays) :
    ∀ p ∈ (generate_players ρ numDays n k).1,
      p.created_day ≤ p.churn_day_idx ∧ p.churn_day_idx ≤ numDays - 1 :=
  fun p hp => playersLoop_days ρ h n 1 k p hp

/-- Witness for `c5_player_lifetimes` at a two-day horizon with the zero
stream: the generated player has creation day 0 and churn-day index 1. -/
theorem c5_player_lifetimes_witness :
    (genOnePlayer rho0 2 1 0).1.created_day ≤
        (genOnePlayer rho0 2 1 0).1.churn_day_idx ∧
      (genOnePlayer rho0 2 1 0).1.churn_day_idx ≤ 2 - 1 :=
  c5_player_lifetimes rho0 2 1 0 (by decide) ((genOnePlayer rho0 2 1 0).1)
    (by with_unfolding_all decide)

/-- C9: the per-day session count drawn by the activity generator lies in
the range determined by the engagement segment: casual in [1,3], midcore
in [1,4], and every other segment (heavy) in [2,10] via the power-law
draw floored at 2 and capped at 10. -/
theorem c9_session_counts (ρ : RSeq) (k : Nat) (seg : String) :
    if seg = "casual" then
      1 ≤ (sessionsTodayDraw ρ k seg).1 ∧ (sessionsTodayDraw ρ k seg).1 ≤ 3
    else if seg = "midcore" then
      1 ≤ (sessionsTodayDraw ρ k seg).1 ∧ (sessionsTodayDraw ρ k seg).1 ≤ 4
    else
      2 ≤ (sessionsTodayDraw ρ k seg).1 ∧ (sessionsTodayDraw ρ k seg).1 ≤ 10 := by
  unfold sessionsTodayDraw
  split_ifs with h1 h2
  · have hmem := choicesD_mem ρ k (1, 6 / 10) [(2, 3 / 10), (3, 1 / 10)] 1
    simp only [List.map_cons, List.map_nil, List.mem_cons,
      List.not_mem_nil, or_false] at hmem
    rcases hmem with h | h | h <;> omega
  · have hmem := choicesD_mem ρ k (1, 2 / 10) [(2, 4 / 10), (3, 3 / 10), (4, 1 / 10)] 1
    simp only [List.map_cons, List.map_nil, List.mem_cons,
      List.not_mem_nil, or_false] at hmem
    rcases hmem with h | h | h | h <;> omega
  · dsimp only
    omega

/-- C1 as stated is false on the code: in the one-day run `cxRun` the only
player has churn-day index 0, yet the session emitted for that player
starts at second 108000, i.e. 06:00 UTC on day 1 — after the end (second
86400) of the UTC day corresponding to the churn-day index.  The local
22:59 start time is pushed past midnight by the UTC−8 timezone
conversion. -/
theorem c1_counterexample :
    cxPlayer.churn_day_idx = 0 ∧
      cxRun.sessions.map (fun s => (s.player_id, s.session_start)) = [(1, 108000)] ∧
      ((cxPlayer.churn_day_idx : ℤ) + 1) * 86400 ≤ 108000 := by
  refine ⟨rfl, ?_, by norm_num [cxPlayer]⟩
  with_unfolding_all decide

/-! Teams and memberships: partition properties. -/

theorem memberRows_spec (ρ : RSeq) (tid : Nat) :
    ∀ (pl : List PlayerMeta) (mid k : Nat) (lead : Bool),
      (memberRows ρ tid pl mid k lead).1.map (fun m => m.player_id) =
          pl.map (fun p => p.player_id) ∧
        (∀ m ∈ (memberRows ρ tid pl mid k lead).1, m.team_id = tid) ∧
        (memberRows ρ tid pl mid k lead).1.length = pl.length := by
  intro pl
  induction pl with
  | nil => intro mid k lead; exact ⟨rfl, by simp [memberRows], rfl⟩
  | cons p ps ih =>
      intro mid k lead
      obtain ⟨h1, h2, h3⟩ := ih (mid + 1) (k + 1) false
      refine ⟨?_, ?_, ?_⟩
      · simp only [memberRows, List.map_cons, h1]
      · intro m hm
        simp only [memberRows, List.mem_cons] at hm
        rcases hm with rfl | hm
        · rfl
        · exact h2 m hm
      · simp only [memberRows, List.length_cons, h3]

theorem teamBucket_mm (ρ : RSeq) (k : Nat) : 1 ≤ (teamBucket ρ k).1 := by
  unfold teamBucket
  dsimp only
  split_ifs
  · exact randintN_ge ρ (k + 1) 1 5
  · norm_num
  · norm_num

theorem teamsLoop_cons (ρ : RSeq) (numDays f : Nat) (p : PlayerMeta)
    (ps : List PlayerMeta) (tid mid k : Nat) :
    teamsLoop ρ numDays (f + 1) (p :: ps) tid mid k =
      (⟨tid, randintN ρ (teamBucket ρ k).2.2 0 (numDays - 1),
          (teamBucket ρ k).2.1, (teamBucket ρ k).1⟩ ::
        (teamsLoop ρ numDays f
          ((p :: ps).drop (min (teamBucket ρ k).1 (p :: ps).length)) (tid + 1)
          (memberRows ρ tid ((p :: ps).take (min (teamBucket ρ k).1 (p :: ps).length))
            mid ((teamBucket ρ k).2.2 + 1) true).2.1
          (memberRows ρ tid ((p :: ps).take (min (teamBucket ρ k).1 (p :: ps).length))
            mid ((teamBucket ρ k).2.2 + 1) true).2.2).1,
       (memberRows ρ tid ((p :: ps).take (min (teamBucket ρ k).1 (p :: ps).length))
          mid ((teamBucket ρ k).2.2 + 1) true).1 ++
        (teamsLoop ρ numDays f
          ((p :: ps).drop (min (teamBucket ρ k).1 (p :: ps).length)) (tid + 1)
          (memberRows ρ tid ((p :: ps).take (min (teamBucket ρ k).1 (p :: ps).length))
            mid ((teamBucket ρ k).2.2 + 1) true).2.1
          (memberRows ρ tid ((p :: ps).take (min (teamBucket ρ k).1 (p :: ps).length))
            mid ((teamBucket ρ k).2.2 + 1) true).2.2).2.1,
       (teamsLoop ρ numDays f
          ((p :: ps).drop (min (teamBucket ρ k).1 (p :: ps).length)) (tid + 1)
          (memberRows ρ tid ((p :: ps).take (min (teamBucket ρ k).1 (p :: ps).length))
            mid ((teamBucket ρ k).2.2 + 1) true).2.1
          (memberRows ρ tid ((p :: ps).take (min (teamBucket ρ k).1 (p :: ps).length))
            mid ((teamBucket ρ k).2.2 + 1) true).2.2).2.2) := rfl

theorem teams_assemble {ms1 ms2 : List MembershipRow} {ts2 : List TeamRow}
    {tid : Nat} {t0 : TeamRow} {take1 drop1 pl : List PlayerMeta}
    (ht0 : t0.team_id = tid)
    (hsplit : take1 ++ drop1 = pl)
    (hA1 : ms1.map (fun m => m.player_id) = take1.map (fun p => p.player_id))
    (hT1 : ∀ m ∈ ms1, m.team_id = tid)
    (hcap : ms1.length ≤ t0.max_members)
    (hA2 : ms2.map (fun m => m.player_id) = drop1.map (fun p => p.player_id))
    (hB2 : ∀ m ∈ ms2, tid + 1 ≤ m.team_id)
    (hC2 : ∀ t ∈ ts2, tid + 1 ≤ t.team_id)
    (hD2 : ∀ t ∈ ts2,
      (ms2.filter (fun m => m.team_id = t.team_id)).length ≤ t.max_members)
    (hE2 : (ts2.map (fun t =>
        (ms2.filter (fun m => m.team_id = t.team_id)).length)).sum = ms2.length) :
    ((ms1 ++ ms2).map (fun m => m.player_id) = pl.map (fun p => p.player_id)) ∧
      (∀ m ∈ ms1 ++ ms2, tid ≤ m.team_id) ∧
      (∀ t ∈ t0 :: ts2, tid ≤ t.team_id) ∧
      (∀ t ∈ t0 :: ts2,
        ((ms1 ++ ms2).filter (fun m => m.team_id = t.team_id)).length ≤
          t.max_members) ∧
      ((t0 :: ts2).map (fun t =>
          ((ms1 ++ ms2).filter (fun m => m.team_id = t.team_id)).length)).sum =
        (ms1 ++ ms2).length := by
  have hf1 : ms1.filter (fun m => m.team_id = tid) = ms1 :=
    List.filter_eq_self.mpr (fun m hm => by
      simp only [decide_eq_true_eq]
      exact hT1 m hm)
  have hf2 : ms2.filter (fun m => m.team_id = tid) = [] :=
    List.filter_eq_nil_iff.mpr (fun m hm => by
      simp only [decide_eq_true_eq]
      have := hB2 m hm
      omega)
  have hf3 : ∀ t ∈ ts2, ms1.filter (fun m => m.team_id = t.team_id) = [] := by
    intro t ht
    refine List.filter_eq_nil_iff.mpr (fun m hm => ?_)
    simp only [decide_eq_true_eq]
    have := hC2 t ht
    have := hT1 m hm
    omega
  refine ⟨?_, ?_, ?_, ?_, ?_⟩
  · rw [List.map_append, hA1, hA2, ← List.map_append, hsplit]
  · intro m hm
    rcases List.mem_append.mp hm with hm | hm
    · exact le_of_eq (hT1 m hm).symm
    · have := hB2 m hm
      omega
  · intro t ht
    rcases List.mem_cons.mp ht with rfl | ht
    · exact le_of_eq ht0.symm
    · have := hC2 t ht
      omega
  · intro t ht
    rcases List.mem_cons.mp ht with rfl | ht
    · rw [List.filter_append, ht0, hf1, hf2, List.append_nil]
      exact hcap
    · rw [List.filter_append, hf3 t ht, List.nil_append]
      exact hD2 t ht
  · rw [List.map_cons, List.sum_cons, List.filter_append, ht0, hf1, hf2,
      List.append_nil]
    have hmaps : ts2.map (fun t =>
        ((ms1 ++ ms2).filter (fun m => m.team_id = t.team_id)).length) =
        ts2.map (fun t =>
          (ms2.filter (fun m => m.team_id = t.team_id)).length) :=
      List.map_congr_left (fun t ht => by
        rw [List.filter_append, hf3 t ht, List.nil_append])
    rw [hmaps, hE2, List.length_append]

theorem teamsLoop_spec (ρ : RSeq) (numDays : Nat) :
    ∀ (fuel : Nat) (pl : List PlayerMeta) (tid mid k : Nat), pl.length ≤ fuel →
      (teamsLoop ρ numDays fuel pl tid mid k).2.1.map (fun m => m.player_id) =
          pl.map (fun p => p.player_id) ∧
        (∀ m ∈ (teamsLoop ρ numDays fuel pl tid mid k).2.1, tid ≤ m.team_id) ∧
        (∀ t ∈ (teamsLoop ρ numDays fuel pl tid mid k).1, tid ≤ t.team_id) ∧
        (∀ t ∈ (teamsLoop ρ numDays fuel pl tid mid k).1,
          ((teamsLoop ρ numDays fuel pl tid mid k).2.1.filter
              (fun m => m.team_id = t.team_id)).length ≤ t.max_members) ∧
        ((teamsLoop ρ numDays fuel pl tid mid k).1.map (fun t =>
            ((teamsLoop ρ numDays fuel pl tid mid k).2.1.filter
              (fun m => m.team_id = t.team_id)).length)).sum =
          (teamsLoop ρ numDays fuel pl tid mid k).2.1.length := by
  intro fuel
  induction fuel with
  | zero =>
      intro pl tid mid k hlen
      match pl with
      | [] => exact ⟨rfl, by simp [teamsLoop], by simp [teamsLoop],
          by simp [teamsLoop], by simp [teamsLoop]⟩
      | p :: ps => simp at hlen
  | succ f ih =>
      intro pl tid mid k hlen
      match pl with
      | [] => exact ⟨rfl, by simp [teamsLoop], by simp [teamsLoop],
          by simp [teamsLoop], by simp [teamsLoop]⟩
      | p :: ps =>
          obtain ⟨hA1, hT1, hL1⟩ := memberRows_spec ρ tid
            ((p :: ps).take (min (teamBucket ρ k).1 (p :: ps).length)) mid
            ((teamBucket ρ k).2.2 + 1) true
          have hts1 : 1 ≤ min (teamBucket ρ k).1 (p :: ps).length := by
            have := teamBucket_mm ρ k
            simp only [List.length_cons]
            omega
          have hdlen : ((p :: ps).drop
              (min (teamBucket ρ k).1 (p :: ps).length)).length ≤ f := by
            rw [List.length_drop]
            simp only [List.length_cons] at hlen ⊢
            omega
          obtain ⟨hA2, hB2, hC2, hD2, hE2⟩ := ih
            ((p :: ps).drop (min (teamBucket ρ k).1 (p :: ps).length)) (tid + 1)
            (memberRows ρ tid
              ((p :: ps).take (min (teamBucket ρ k).1 (p :: ps).length)) mid
              ((teamBucket ρ k).2.2 + 1) true).2.1
            (memberRows ρ tid
              ((p :: ps).take (min (teamBucket ρ k).1 (p :: ps).length)) mid
              ((teamBucket ρ k).2.2 + 1) true).2.2 hdlen
          have hcap : (memberRows ρ tid
              ((p :: ps).take (min (teamBucket ρ k).1 (p :: ps).length)) mid
              ((teamBucket ρ k).2.2 + 1) true).1.length ≤ (teamBucket ρ k).1 := by
            rw [hL1, List.length_take]
            omega
          rw [teamsLoop_cons]
          exact teams_assemble rfl
            (List.take_append_drop (min (teamBucket ρ k).1 (p :: ps).length) (p :: ps))
            hA1 hT1 hcap hA2 hB2 hC2 hD2 hE2

/-- C6: the team/membership generator partitions the population exactly —
the membership player ids are a permutation of the population's player
ids (every player in exactly one membership), each team's member count is
at most its declared `max_members`, and the per-team member counts sum to
the population size. -/
theorem c6_team_partition (ρ : RSeq) (numDays : Nat) (players : List PlayerMeta)
    (k : Nat) :
    ((generate_teams_and_memberships ρ numDays players k).2.1.map
        (fun m => m.player_id)).Perm (players.map (fun p => p.player_id)) ∧
      (∀ t ∈ (generate_teams_and_memberships ρ numDays players k).1,
        ((generate_teams_and_memberships ρ numDays players k).2.1.filter
            (fun m => m.team_id = t.team_id)).length ≤ t.max_members) ∧
      ((generate_teams_and_memberships ρ numDays players k).1.map (fun t =>
          ((generate_teams_and_memberships ρ numDays players k).2.1.filter
            (fun m => m.team_id = t.team_id)).length)).sum = players.length := by
  have hperm := sampleR_perm ρ players.length players k rfl
  have hlen : (sampleR ρ players.length players k).1.length = players.length :=
    hperm.length_eq
  obtain ⟨hA, _, _, hD, hE⟩ := teamsLoop_spec ρ numDays
    (sampleR ρ players.length players k).1.length
    (sampleR ρ players.length players k).1 1 1
    (sampleR ρ players.length players k).2 (le_refl _)
  have hgen : generate_teams_and_memberships ρ numDays players k =
      teamsLoop ρ numDays (sampleR ρ players.length players k).1.length
        (sampleR ρ players.length players k).1 1 1
        (sampleR ρ players.length players k).2 := rfl
  refine ⟨?_, ?_, ?_⟩
  · rw [hgen, hA]
    exact hperm.map (fun p => p.player_id)
  · rw [hgen]
    exact hD
  · rw [hgen, hE]
    have hlm := congrArg List.length hA
    simp only [List.length_map] at hlm
    rw [hlm, hlen]

/-- Witness for `c6_team_partition`: a single-player population forms one
team of one member. -/
theorem c6_team_partition_witness :
    ((generate_teams_and_memberships rho0 1 [wPlayer] 0).2.1.map
        (fun m => m.player_id)).Perm ([wPlayer].map (fun p => p.player_id)) ∧
      ((generate_teams_and_memberships rho0 1 [wPlayer] 0).2.1.filter
          (fun m => m.team_id = ((generate_teams_and_memberships rho0 1 [wPlayer]
            0).1.getD 0 teamRow0).team_id)).length ≤
        ((generate_teams_and_memberships rho0 1 [wPlayer]
          0).1.getD 0 teamRow0).max_members ∧
      ((generate_teams_and_memberships rho0 1 [wPlayer] 0).1.map (fun t =>
          ((generate_teams_and_memberships rho0 1 [wPlayer] 0).2.1.filter
            (fun m => m.team_id = t.team_id)).length)).sum = [wPlayer].length :=
  ⟨(c6_team_partition rho0 1 [wPlayer] 0).1,
   (c6_team_partition rho0 1 [wPlayer] 0).2.1 _ (by with_unfolding_all decide),
   (c6_team_partition rho0 1 [wPlayer] 0).2.2⟩

/-- Witness for `c9_session_counts` at the casual segment with the zero
stream. -/
theorem c9_session_counts_witness :
    if ("casual" : String) = "casual" then
      1 ≤ (sessionsTodayDraw rho0 0 "casual").1 ∧
        (sessionsTodayDraw rho0 0 "casual").1 ≤ 3
    else if ("casual" : String) = "midcore" then
      1 ≤ (sessionsTodayDraw rho0 0 "casual").1 ∧
        (sessionsTodayDraw rho0 0 "casual").1 ≤ 4
    else
      2 ≤ (sessionsTodayDraw rho0 0 "casual").1 ∧
        (sessionsTodayDraw rho0 0 "casual").1 ≤ 10 :=
  c9_session_counts rho0 0 "casual"

/-! Bookkeeping invariant of the activity generator: id monotonicity,
referential integrity, purchase gating and shape, and timestamp bounds. -/

theorem pyRound_intCast (n : ℤ) : pyRound ((n : ℚ)) = n := by
  unfold pyRound
  rw [Int.fract_intCast, if_pos (by norm_num : (0 : ℚ) < 1 / 2)]
  exact Int.floor_intCast n

theorem catalogue_price (pr : String × String × ℚ × Nat × Nat)
    (h : pr ∈ productCatalogue.map Prod.fst) :
    pyRound (pr.2.2.1 * 100) ∈ ([199, 999, 499, 1999] : List ℤ) := by
  simp only [productCatalogue, List.map_cons, List.map_nil, List.mem_cons,
    List.not_mem_nil, or_false] at h
  rcases h with rfl | rfl | rfl | rfl | rfl
  · show pyRound ((199 : ℚ) / 100 * 100) ∈ ([199, 999, 499, 1999] : List ℤ)
    rw [show (199 : ℚ) / 100 * 100 = ((199 : ℤ) : ℚ) by norm_num, pyRound_intCast]
    decide
  · show pyRound ((999 : ℚ) / 100 * 100) ∈ ([199, 999, 499, 1999] : List ℤ)
    rw [show (999 : ℚ) / 100 * 100 = ((999 : ℤ) : ℚ) by norm_num, pyRound_intCast]
    decide
  · show pyRound ((499 : ℚ) / 100 * 100) ∈ ([199, 999, 499, 1999] : List ℤ)
    rw [show (499 : ℚ) / 100 * 100 = ((499 : ℤ) : ℚ) by norm_num, pyRound_intCast]
    decide
  · show pyRound ((1999 : ℚ) / 100 * 100) ∈ ([199, 999, 499, 1999] : List ℤ)
    rw [show (1999 : ℚ) / 100 * 100 = ((1999 : ℤ) : ℚ) by norm_num, pyRound_intCast]
    decide
  · show pyRound ((999 : ℚ) / 100 * 100) ∈ ([199, 999, 499, 1999] : List ℤ)
    rw [show (999 : ℚ) / 100 * 100 = ((999 : ℤ) : ℚ) by norm_num, pyRound_intCast]
    decide

theorem Extends.refl (st : GenState) : Extends st st :=
  ⟨le_refl _, le_refl _, le_refl _, le_refl _,
   ⟨[], (List.append_nil _).symm⟩, ⟨[], (List.append_nil _).symm⟩,
   ⟨[], (List.append_nil _).symm⟩⟩

theorem Extends.trans {s1 s2 s3 : GenState} (h1 : Extends s1 s2)
    (h2 : Extends s2 s3) : Extends s1 s3 := by
  obtain ⟨a1, b1, c1, d1, ⟨l1, hl1⟩, ⟨l2, hl2⟩, ⟨l3, hl3⟩⟩ := h1
  obtain ⟨a2, b2, c2, d2, ⟨r1, hr1⟩, ⟨r2, hr2⟩, ⟨r3, hr3⟩⟩ := h2
  refine ⟨le_trans a1 a2, le_trans b1 b2, le_trans c1 c2, le_trans d1 d2,
    ⟨l1 ++ r1, ?_⟩, ⟨l2 ++ r2, ?_⟩, ⟨l3 ++ r3, ?_⟩⟩
  · rw [hr1, hl1, List.append_assoc]
  · rw [hr2, hl2, List.append_assoc]
  · rw [hr3, hl3, List.append_assoc]

theorem Extends.sid_mono {st st' : GenState} (h : Extends st st') {x : Nat}
    (hx : x ∈ st.sessions.map (fun s => s.session_id)) :
    x ∈ st'.sessions.map (fun s => s.session_id) := by
  obtain ⟨l, hl⟩ := h.s_pre
  rw [hl, List.map_append]
  exact List.mem_append_left _ hx

theorem StInv_of_fields {players : List PlayerMeta} {st st' : GenState}
    (inv : StInv players st)
    (h1 : st'.sessions = st.sessions) (h2 : st'.events = st.events)
    (h3 : st'.purchases = st.purchases)
    (h4 : st'.session_id_counter = st.session_id_counter)
    (h5 : st'.event_id_counter = st.event_id_counter)
    (h6 : st'.purchase_id_counter = st.purchase_id_counter)
    (h7 : st'.match_id_counter = st.match_id_counter) :
    StInv players st' := by
  refine ⟨?_, ?_, ?_, ?_, ?_, ?_, ?_, ?_, ?_, ?_, ?_, ?_, ?_, ?_, ?_⟩ <;>
    simp only [h1, h2, h3, h4, h5, h6, h7]
  exacts [inv.s_ids, inv.s_lt, inv.e_ids, inv.e_lt, inv.q_ids, inv.q_lt,
    inv.m_ids, inv.m_lt, inv.e_ref, inv.q_ref, inv.q_payer, inv.q_shape,
    inv.s_time, inv.e_time, inv.q_time]

theorem Extends_of_fields {st st' : GenState}
    (h1 : st'.sessions = st.sessions) (h2 : st'.events = st.events)
    (h3 : st'.purchases = st.purchases)
    (h4 : st'.session_id_counter = st.session_id_counter)
    (h5 : st'.event_id_counter = st.event_id_counter)
    (h6 : st'.purchase_id_counter = st.purchase_id_counter)
    (h7 : st'.match_id_counter = st.match_id_counter) :
    Extends st st' :=
  ⟨le_of_eq h4.symm, le_of_eq h5.symm, le_of_eq h6.symm, le_of_eq h7.symm,
   ⟨[], by rw [h1, List.append_nil]⟩, ⟨[], by rw [h2, List.append_nil]⟩,
   ⟨[], by rw [h3, List.append_nil]⟩⟩

theorem genPurchaseMaybe_spec (ρ : RSeq) {players : List PlayerMeta}
    {p : PlayerMeta} (hp : p ∈ players) (sid : Nat) (end_time : Int)
    {st : GenState} (inv : StInv players st)
    (hsid : sid ∈ st.sessions.map (fun s => s.session_id))
    (htime : (p.created_day : ℤ) * 86400 ≤ end_time) :
    StInv players (genPurchaseMaybe ρ p sid end_time st) ∧
      Extends st (genPurchaseMaybe ρ p sid end_time st) ∧
      (genPurchaseMaybe ρ p sid end_time st).sessions = st.sessions ∧
      (genPurchaseMaybe ρ p sid end_time st).events = st.events := by
  unfold genPurchaseMaybe
  dsimp only
  by_cases h1 : p.spend_segment = "nonpayer"
  · rw [if_pos h1]
    exact ⟨inv, Extends.refl st, rfl, rfl⟩
  rw [if_neg h1]
  by_cases h2 : unitDraw ρ st.k <
      (if p.spend_segment = "minnow" then (1 : ℚ) / 100
       else if p.spend_segment = "dolphin" then 3 / 100 else 10 / 100)
  · rw [if_pos h2]
    refine ⟨?_, ?_, rfl, rfl⟩
    · refine ⟨inv.s_ids, inv.s_lt, inv.e_ids, inv.e_lt, ?_, ?_, inv.m_ids,
        inv.m_lt, inv.e_ref, ?_, ?_, ?_, inv.s_time, inv.e_time, ?_⟩
      · rw [List.map_append, List.pairwise_append]
        refine ⟨inv.q_ids, by simp, ?_⟩
        intro a ha b hb
        simp only [List.map_cons, List.map_nil, List.mem_cons,
          List.not_mem_nil, or_false] at hb
        subst hb
        rcases List.mem_map.mp ha with ⟨q, hq, rfl⟩
        exact inv.q_lt q hq
      · intro q hq
        rcases List.mem_append.mp hq with hq | hq
        · exact lt_trans (inv.q_lt q hq) (Nat.lt_succ_self _)
        · simp only [List.mem_singleton] at hq
          subst hq
          exact Nat.lt_succ_self _
      · intro q hq
        rcases List.mem_append.mp hq with hq | hq
        · exact inv.q_ref q hq
        · simp only [List.mem_singleton] at hq
          subst hq
          exact hsid
      · intro q hq
        rcases List.mem_append.mp hq with hq | hq
        · exact inv.q_payer q hq
        · simp only [List.mem_singleton] at hq
          subst hq
          exact ⟨p, hp, rfl, h1⟩
      · intro q hq
        rcases List.mem_append.mp hq with hq | hq
        · exact inv.q_shape q hq
        · simp only [List.mem_singleton] at hq
          subst hq
          refine ⟨rfl, rfl, ?_⟩
          exact catalogue_price _ (choicesD_mem ρ (st.k + 1)
            (("soft_small", "SoftPack", 199 / 100, 500, 0), 3 / 10)
            (productCatalogue.tail) ("soft_small", "SoftPack", 199 / 100, 500, 0))
      · intro q hq
        rcases List.mem_append.mp hq with hq | hq
        · exact inv.q_time q hq
        · simp only [List.mem_singleton] at hq
          subst hq
          refine ⟨p, hp, rfl, ?_⟩
          show (p.created_day : ℤ) * 86400 ≤
            end_time + (randintN ρ (st.k + 2) 5 60 : ℤ)
          have h5 := randintN_ge ρ (st.k + 2) 5 60
          omega
    · exact ⟨le_refl _, le_refl _, Nat.le_succ _, le_refl _,
        ⟨[], (List.append_nil _).symm⟩, ⟨[], (List.append_nil _).symm⟩,
        ⟨_, rfl⟩⟩
  · rw [if_neg h2]
    exact ⟨StInv_of_fields inv rfl rfl rfl rfl rfl rfl rfl,
      Extends_of_fields rfl rfl rfl rfl rfl rfl rfl, rfl, rfl⟩

theorem le_add_randintN (ρ : RSeq) (x : Int) (k a b : Nat) :
    x ≤ x + (randintN ρ k a b : Int) := by
  have h := Int.natCast_nonneg (randintN ρ k a b)
  omega

theorem matchEvents_spec (ρ : RSeq) {players : List PlayerMeta}
    {p : PlayerMeta} (hp : p ∈ players) (sid : Nat) (mst end_time : Int)
    {st : GenState} (inv : StInv players st)
    (hsid : sid ∈ st.sessions.map (fun s => s.session_id))
    (hmst : (p.created_day : ℤ) * 86400 ≤ mst)
    (hend : mst ≤ end_time) :
    StInv players (matchEvents ρ p sid mst end_time st) ∧
      Extends st (matchEvents ρ p sid mst end_time st) ∧
      (matchEvents ρ p sid mst end_time st).sessions = st.sessions := by
  unfold matchEvents
  dsimp only
  refine ⟨?_, ?_, rfl⟩
  · refine ⟨inv.s_ids, inv.s_lt, ?_, ?_, inv.q_ids, inv.q_lt, ?_, ?_, ?_,
      inv.q_ref, inv.q_payer, inv.q_shape, inv.s_time, ?_, inv.q_time⟩ <;>
      dsimp only
    · rw [List.map_append, List.pairwise_append]
      refine ⟨inv.e_ids, by simp, ?_⟩
      intro a ha b hb
      simp only [List.map_cons, List.map_nil, List.mem_cons,
        List.not_mem_nil, or_false] at hb
      rcases List.mem_map.mp ha with ⟨e, he, rfl⟩
      have := inv.e_lt e he
      rcases hb with rfl | rfl <;> omega
    · intro e he
      rcases List.mem_append.mp he with he | he
      · have := inv.e_lt e he
        omega
      · simp only [List.mem_cons, List.not_mem_nil, or_false] at he
        rcases he with rfl | rfl <;> simp
    · rw [List.filter_append]
      have hpairf : List.filter (fun (e : EventRow) => decide (e.event_type = "match_start"))
          ([⟨st.event_id_counter, p.player_id, sid, mst, "match_start",
             choicesD ρ st.k
               [("solo", 5 / 10), ("duo", 2 / 10), ("team", 3 / 10)] "solo",
             none, st.levels p.player_id, st.match_id_counter, 0, 0, 0,
             "\x7b\"note\": \"match_started\"\x7d"⟩,
           ⟨st.event_id_counter + 1, p.player_id, sid, end_time, "match_end",
             choicesD ρ st.k
               [("solo", 5 / 10), ("duo", 2 / 10), ("team", 3 / 10)] "solo",
             some (choicesD ρ (st.k + 1)
               [("win", 45 / 100), ("loss", 45 / 100), ("draw", 10 / 100)] "win"),
             st.levels p.player_id, st.match_id_counter,
             (if (choicesD ρ (st.k + 1)
                 [("win", 45 / 100), ("loss", 45 / 100), ("draw", 10 / 100)]
                 "win") = "win" then randintN ρ (st.k + 2) 15 40
              else if (choicesD ρ (st.k + 1)
                 [("win", 45 / 100), ("loss", 45 / 100), ("draw", 10 / 100)]
                 "win") = "loss" then randintN ρ (st.k + 2) 5 20
              else randintN ρ (st.k + 2) 5 25), 0, 0,
             "\x7b\"note\": \"match_ended\"\x7d"⟩] : List EventRow) =
          [⟨st.event_id_counter, p.player_id, sid, mst, "match_start",
             choicesD ρ st.k
               [("solo", 5 / 10), ("duo", 2 / 10), ("team", 3 / 10)] "solo",
             none, st.levels p.player_id, st.match_id_counter, 0, 0, 0,
             "\x7b\"note\": \"match_started\"\x7d"⟩] := rfl
      rw [hpairf, List.map_append, List.pairwise_append]
      refine ⟨inv.m_ids, by simp, ?_⟩
      intro a ha b hb
      simp only [List.map_cons, List.map_nil, List.mem_cons,
        List.not_mem_nil, or_false] at hb
      subst hb
      rcases List.mem_map.mp ha with ⟨e, he, rfl⟩
      exact inv.m_lt e (List.mem_of_mem_filter he)
    · intro e he
      rcases List.mem_append.mp he with he | he
      · have := inv.m_lt e he
        omega
      · simp only [List.mem_cons, List.not_mem_nil, or_false] at he
        rcases he with rfl | rfl <;> simp
    · intro e he
      rcases List.mem_append.mp he with he | he
      · exact inv.e_ref e he
      · simp only [List.mem_cons, List.not_mem_nil, or_false] at he
        rcases he with rfl | rfl <;> exact hsid
    · intro e he
      rcases List.mem_append.mp he with he | he
      · exact inv.e_time e he
      · simp only [List.mem_cons, List.not_mem_nil, or_false] at he
        rcases he with rfl | rfl
        · exact ⟨p, hp, rfl, hmst⟩
        · exact ⟨p, hp, rfl, le_trans hmst hend⟩
  · exact ⟨le_refl _, by simp, le_refl _, by simp,
      ⟨[], (List.append_nil _).symm⟩, ⟨_, rfl⟩,
      ⟨[], (List.append_nil _).symm⟩⟩

theorem levelUpMaybe_fields (ρ : RSeq) (p : PlayerMeta) (st : GenState) :
    (levelUpMaybe ρ p st).sessions = st.sessions ∧
      (levelUpMaybe ρ p st).events = st.events ∧
      (levelUpMaybe ρ p st).purchases = st.purchases ∧
      (levelUpMaybe ρ p st).session_id_counter = st.session_id_counter ∧
      (levelUpMaybe ρ p st).event_id_counter = st.event_id_counter ∧
      (levelUpMaybe ρ p st).purchase_id_counter = st.purchase_id_counter ∧
      (levelUpMaybe ρ p st).match_id_counter = st.match_id_counter := by
  unfold levelUpMaybe
  split_ifs <;> exact ⟨rfl, rfl, rfl, rfl, rfl, rfl, rfl⟩

theorem genOneMatch_spec (ρ : RSeq) {players : List PlayerMeta}
    {p : PlayerMeta} (hp : p ∈ players) (sid : Nat) (mst : Int)
    {st : GenState} (inv : StInv players st)
    (hsid : sid ∈ st.sessions.map (fun s => s.session_id))
    (hmst : (p.created_day : ℤ) * 86400 ≤ mst) :
    StInv players (genOneMatch ρ p sid mst st).1 ∧
      Extends st (genOneMatch ρ p sid mst st).1 ∧
      (genOneMatch ρ p sid mst st).1.sessions = st.sessions ∧
      mst ≤ (genOneMatch ρ p sid mst st).2 := by
  have hend : mst ≤ mst + (randintN ρ (st.k + 3) 60 900 : ℤ) :=
    le_add_randintN ρ mst (st.k + 3) 60 900
  obtain ⟨inv1, ext1, hs1⟩ := matchEvents_spec ρ hp sid mst
    (mst + (randintN ρ (st.k + 3) 60 900 : ℤ)) inv hsid hmst hend
  obtain ⟨hl1, hl2, hl3, hl4, hl5, hl6, hl7⟩ := levelUpMaybe_fields ρ p
    (matchEvents ρ p sid mst (mst + (randintN ρ (st.k + 3) 60 900 : ℤ)) st)
  have inv2 := StInv_of_fields inv1 hl1 hl2 hl3 hl4 hl5 hl6 hl7
  have ext2 := Extends_of_fields hl1 hl2 hl3 hl4 hl5 hl6 hl7
  have hsid2 : sid ∈ (levelUpMaybe ρ p (matchEvents ρ p sid mst
      (mst + (randintN ρ (st.k + 3) 60 900 : ℤ)) st)).sessions.map
        (fun s => s.session_id) := (Extends.trans ext1 ext2).sid_mono hsid
  obtain ⟨inv3, ext3, hs3, he3⟩ := genPurchaseMaybe_spec ρ hp sid
    (mst + (randintN ρ (st.k + 3) 60 900 : ℤ)) inv2 hsid2 (le_trans hmst hend)
  refine ⟨StInv_of_fields inv3 rfl rfl rfl rfl rfl rfl rfl, ?_, ?_, ?_⟩
  · exact ((ext1.trans ext2).trans ext3).trans
      (Extends_of_fields rfl rfl rfl rfl rfl rfl rfl)
  · exact hs3.trans (hl1.trans hs1)
  · exact le_trans hend (le_add_randintN ρ _ _ 10 120)

theorem matchesLoop_spec (ρ : RSeq) {players : List PlayerMeta}
    {p : PlayerMeta} (hp : p ∈ players) (sid : Nat) :
    ∀ (n : Nat) (mst : Int) (st : GenState), StInv players st →
      sid ∈ st.sessions.map (fun s => s.session_id) →
      (p.created_day : ℤ) * 86400 ≤ mst →
      StInv players (matchesLoop ρ p sid n mst st) ∧
        Extends st (matchesLoop ρ p sid n mst st) ∧
        (matchesLoop ρ p sid n mst st).sessions = st.sessions := by
  intro n
  induction n with
  | zero => intro mst st inv hsid hmst; exact ⟨inv, Extends.refl st, rfl⟩
  | succ m ih =>
      intro mst st inv hsid hmst
      obtain ⟨inv1, ext1, hs1, hnext⟩ := genOneMatch_spec ρ hp sid mst inv hsid hmst
      obtain ⟨inv2, ext2, hs2⟩ := ih (genOneMatch ρ p sid mst st).2
        (genOneMatch ρ p sid mst st).1 inv1
        (by rw [hs1]; exact hsid) (le_trans hmst hnext)
      rw [matchesLoop]
      exact ⟨inv2, ext1.trans ext2, hs2.trans hs1⟩

theorem sessionAppend_spec {players : List PlayerMeta} {p : PlayerMeta}
    (hp : p ∈ players) {st : GenState} (inv : StInv players st)
    (row : SessionRow) (hrid : row.session_id = st.session_id_counter)
    (hrpid : row.player_id = p.player_id)
    (hlow : (p.created_day : ℤ) * 86400 ≤ row.session_start)
    (hhigh : row.session_start ≤ (p.churn_day_idx : ℤ) * 86400 + 111540)
    (hse : row.session_start ≤ row.session_end)
    (k' : Nat) :
    StInv players
        { st with
            k := k',
            session_id_counter := st.session_id_counter + 1,
            sessions := st.sessions ++ [row] } ∧
      Extends st
        { st with
            k := k',
            session_id_counter := st.session_id_counter + 1,
            sessions := st.sessions ++ [row] } := by
  constructor
  · refine ⟨?_, ?_, inv.e_ids, inv.e_lt, inv.q_ids, inv.q_lt, inv.m_ids,
      inv.m_lt, ?_, ?_, inv.q_payer, inv.q_shape, ?_, inv.e_time,
      inv.q_time⟩ <;> dsimp only
    · rw [List.map_append, List.pairwise_append]
      refine ⟨inv.s_ids, by simp, ?_⟩
      intro a ha b hb
      simp only [List.map_cons, List.map_nil, List.mem_cons,
        List.not_mem_nil, or_false] at hb
      subst hb
      rcases List.mem_map.mp ha with ⟨s, hs, rfl⟩
      rw [hrid]
      exact inv.s_lt s hs
    · intro s hs
      rcases List.mem_append.mp hs with hs | hs
      · have := inv.s_lt s hs
        omega
      · simp only [List.mem_singleton] at hs
        subst hs
        omega
    · intro e he
      rw [List.map_append]
      exact List.mem_append_left _ (inv.e_ref e he)
    · intro q hq
      rw [List.map_append]
      exact List.mem_append_left _ (inv.q_ref q hq)
    · intro s hs
      rcases List.mem_append.mp hs with hs | hs
      · exact inv.s_time s hs
      · simp only [List.mem_singleton] at hs
        subst hs
        exact ⟨p, hp, hrpid, hlow, hhigh, hse⟩
  · exact ⟨Nat.le_succ _, le_refl _, le_refl _, le_refl _,
      ⟨[row], rfl⟩, ⟨[], (List.append_nil _).symm⟩,
      ⟨[], (List.append_nil _).symm⟩⟩

theorem genOneSession_spec (ρ : RSeq) {players : List PlayerMeta}
    {p : PlayerMeta} (hp : p ∈ players) (day_idx season_id : Nat)
    {st : GenState} (inv : StInv players st)
    (htz1 : -8 ≤ p.time_zone_offset) (htz2 : p.time_zone_offset ≤ 9)
    (hcd : p.created_day ≤ day_idx) (hch : day_idx ≤ p.churn_day_idx) :
    StInv players (genOneSession ρ p day_idx season_id st) ∧
      Extends st (genOneSession ρ p day_idx season_id st) := by
  have hhour : 12 ≤ choicesD ρ st.k
      [(12, 1 / 10), (15, 2 / 10), (18, 4 / 10), (20, 2 / 10), (22, 1 / 10)] 12 ∧
      choicesD ρ st.k
      [(12, 1 / 10), (15, 2 / 10), (18, 4 / 10), (20, 2 / 10), (22, 1 / 10)] 12 ≤ 22 := by
    have hm := choicesD_mem ρ st.k (12, 1 / 10)
      [(15, 2 / 10), (18, 4 / 10), (20, 2 / 10), (22, 1 / 10)] 12
    simp only [List.map_cons, List.map_nil, List.mem_cons,
      List.not_mem_nil, or_false] at hm
    rcases hm with h | h | h | h | h <;> omega
  have hmin : randintN ρ (st.k + 1) 0 59 ≤ 59 :=
    randintN_le ρ (st.k + 1) (by norm_num)
  have hlow : (p.created_day : ℤ) * 86400 ≤
      (day_idx : ℤ) * 86400 +
        ((choicesD ρ st.k
          [(12, 1 / 10), (15, 2 / 10), (18, 4 / 10), (20, 2 / 10), (22, 1 / 10)]
          12 : ℕ) : ℤ) * 3600 +
        (randintN ρ (st.k + 1) 0 59 : ℤ) * 60 - p.time_zone_offset * 3600 := by
    obtain ⟨h1, h2⟩ := hhour
    omega
  have hhigh : (day_idx : ℤ) * 86400 +
        ((choicesD ρ st.k
          [(12, 1 / 10), (15, 2 / 10), (18, 4 / 10), (20, 2 / 10), (22, 1 / 10)]
          12 : ℕ) : ℤ) * 3600 +
        (randintN ρ (st.k + 1) 0 59 : ℤ) * 60 - p.time_zone_offset * 3600 ≤
      (p.churn_day_idx : ℤ) * 86400 + 111540 := by
    obtain ⟨h1, h2⟩ := hhour
    omega
  have hse : (0 : ℤ) ≤ ((max 60 (ρ (st.k + 2)) : ℕ) : ℤ) := Int.natCast_nonneg _
  unfold genOneSession
  dsimp only
  split_ifs with h0
  · apply sessionAppend_spec hp inv _ rfl rfl _ _ _ _
    · exact hlow
    · exact hhigh
    · dsimp only
      omega
  · obtain ⟨inv1, ext1⟩ := sessionAppend_spec hp inv
      ⟨st.session_id_counter, p.player_id,
       (day_idx : ℤ) * 86400 +
         ((choicesD ρ st.k
           [(12, 1 / 10), (15, 2 / 10), (18, 4 / 10), (20, 2 / 10), (22, 1 / 10)]
           12 : ℕ) : ℤ) * 3600 +
         (randintN ρ (st.k + 1) 0 59 : ℤ) * 60 - p.time_zone_offset * 3600,
       ((day_idx : ℤ) * 86400 +
         ((choicesD ρ st.k
           [(12, 1 / 10), (15, 2 / 10), (18, 4 / 10), (20, 2 / 10), (22, 1 / 10)]
           12 : ℕ) : ℤ) * 3600 +
         (randintN ρ (st.k + 1) 0 59 : ℤ) * 60 - p.time_zone_offset * 3600) +
         ((max 60 (ρ (st.k + 2)) : ℕ) : ℤ),
       max 60 (ρ (st.k + 2)),
       "1.0." ++ toString (randintN ρ (st.k + 3) 0 20),
       toString (randintN ρ (st.k + 4) 1000 2000),
       p.country_code, p.platform,
       choiceU ρ (st.k + 5) ["icon_tap", "push", "reengagement_ad"] "icon_tap",
       season_id⟩
      rfl rfl hlow hhigh (by dsimp only; omega) (st.k + 7 + 1)
    have hsid1 : st.session_id_counter ∈
        ({ st with
            k := st.k + 7 + 1,
            session_id_counter := st.session_id_counter + 1,
            sessions := st.sessions ++
            [⟨st.session_id_counter, p.player_id,
              (day_idx : ℤ) * 86400 +
                ((choicesD ρ st.k
                  [(12, 1 / 10), (15, 2 / 10), (18, 4 / 10), (20, 2 / 10), (22, 1 / 10)]
                  12 : ℕ) : ℤ) * 3600 +
                (randintN ρ (st.k + 1) 0 59 : ℤ) * 60 - p.time_zone_offset * 3600,
              ((day_idx : ℤ) * 86400 +
                ((choicesD ρ st.k
                  [(12, 1 / 10), (15, 2 / 10), (18, 4 / 10), (20, 2 / 10), (22, 1 / 10)]
                  12 : ℕ) : ℤ) * 3600 +
                (randintN ρ (st.k + 1) 0 59 : ℤ) * 60 - p.time_zone_offset * 3600) +
                ((max 60 (ρ (st.k + 2)) : ℕ) : ℤ),
              max 60 (ρ (st.k + 2)),
              "1.0." ++ toString (randintN ρ (st.k + 3) 0 20),
              toString (randintN ρ (st.k + 4) 1000 2000),
              p.country_code, p.platform,
              choiceU ρ (st.k + 5) ["icon_tap", "push", "reengagement_ad"] "icon_tap",
              season_id⟩] } : GenState).sessions.map (fun s => s.session_id) := by
      dsimp only
      rw [List.map_append]
      exact List.mem_append_right _ (by simp)
    have hmst : (p.created_day : ℤ) * 86400 ≤
        ((day_idx : ℤ) * 86400 +
          ((choicesD ρ st.k
            [(12, 1 / 10), (15, 2 / 10), (18, 4 / 10), (20, 2 / 10), (22, 1 / 10)]
            12 : ℕ) : ℤ) * 3600 +
          (randintN ρ (st.k + 1) 0 59 : ℤ) * 60 - p.time_zone_offset * 3600) +
          (randintN ρ (st.k + 7) 0 (max 60 (ρ (st.k + 2)) / 3) : ℤ) :=
      le_trans hlow (le_add_randintN ρ _ _ 0 (max 60 (ρ (st.k + 2)) / 3))
    obtain ⟨inv2, ext2, _⟩ := matchesLoop_spec ρ hp st.session_id_counter
      (choicesD ρ (st.k + 6)
        [(0, 1 / 10), (1, 4 / 10), (2, 3 / 10), (3, 15 / 100), (4, 5 / 100)] 0)
      _ _ inv1 hsid1 hmst
    exact ⟨inv2, ext1.trans ext2⟩

theorem sessionsLoop_spec (ρ : RSeq) {players : List PlayerMeta}
    {p : PlayerMeta} (hp : p ∈ players) (day_idx season_id : Nat)
    (htz1 : -8 ≤ p.time_zone_offset) (htz2 : p.time_zone_offset ≤ 9)
    (hcd : p.created_day ≤ day_idx) (hch : day_idx ≤ p.churn_day_idx) :
    ∀ (n : Nat) {st : GenState}, StInv players st →
      StInv players (sessionsLoop ρ p day_idx season_id n st) ∧
        Extends st (sessionsLoop ρ p day_idx season_id n st) := by
  intro n
  induction n with
  | zero => exact fun inv => ⟨inv, Extends.refl _⟩
  | succ m ih =>
      intro st inv
      rw [sessionsLoop]
      obtain ⟨inv1, ext1⟩ :=
        genOneSession_spec ρ hp day_idx season_id inv htz1 htz2 hcd hch
      obtain ⟨inv2, ext2⟩ := ih inv1
      exact ⟨inv2, ext1.trans ext2⟩

theorem genPlayerDay_spec (ρ : RSeq) {players : List PlayerMeta}
    (day_idx season_id : Nat) {st : GenState} (inv : StInv players st)
    {p : PlayerMeta} (hp : p ∈ players)
    (htz1 : -8 ≤ p.time_zone_offset) (htz2 : p.time_zone_offset ≤ 9)
    (hcd : p.created_day ≤ day_idx) (hch : day_idx ≤ p.churn_day_idx) :
    StInv players (genPlayerDay ρ day_idx season_id st p) := by
  unfold genPlayerDay
  dsimp only
  have invk : StInv players
      { st with k := (sessionsTodayDraw ρ st.k p.engagement_segment).2 } :=
    StInv_of_fields inv rfl rfl rfl rfl rfl rfl rfl
  exact (sessionsLoop_spec ρ hp day_idx season_id htz1 htz2 hcd hch _ invk).1

theorem foldl_genPlayerDay_spec (ρ : RSeq) {players : List PlayerMeta}
    (day_idx season_id : Nat) :
    ∀ (acts : List PlayerMeta) {st : GenState}, StInv players st →
      (∀ p ∈ acts, p ∈ players ∧ -8 ≤ p.time_zone_offset ∧
        p.time_zone_offset ≤ 9 ∧ p.created_day ≤ day_idx ∧
        day_idx ≤ p.churn_day_idx) →
      StInv players (acts.foldl (genPlayerDay ρ day_idx season_id) st) := by
  intro acts
  induction acts with
  | nil => exact fun inv _ => inv
  | cons a acts ih =>
      intro st inv hmem
      rw [List.foldl_cons]
      obtain ⟨hap, ht1, ht2, hc1, hc2⟩ := hmem a (List.mem_cons_self a acts)
      exact ih (genPlayerDay_spec ρ day_idx season_id inv hap ht1 ht2 hc1 hc2)
        (fun q hq => hmem q (List.mem_cons_of_mem a hq))

theorem dayStep_StInv (ρ : RSeq) (dau : List ℤ) {players : List PlayerMeta}
    {c : DayCtx} (day_idx : Nat) (inv : StInv players c.gs)
    (hpool : ∀ p ∈ (dayPools c day_idx).1, p ∈ players ∧
      -8 ≤ p.time_zone_offset ∧ p.time_zone_offset ≤ 9 ∧
      p.created_day ≤ day_idx ∧ day_idx ≤ p.churn_day_idx) :
    StInv players (dayStep ρ dau c day_idx).gs := by
  unfold dayStep
  dsimp only
  split_ifs with h1 h2
  · exact StInv_of_fields inv rfl rfl rfl rfl rfl rfl rfl
  · exact StInv_of_fields inv rfl rfl rfl rfl rfl rfl rfl
  · have inv1 : StInv players
        ({ c.gs with
            k := (sampleR ρ (min (dau.getD day_idx 0)
              ((dayPools c day_idx).1.length : Int)).toNat
              (dayPools c day_idx).1 c.gs.k).2,
            dayLog := c.gs.dayLog ++
              [⟨(dayPools c day_idx).1,
                (sampleR ρ (min (dau.getD day_idx 0)
                  ((dayPools c day_idx).1.length : Int)).toNat
                  (dayPools c day_idx).1 c.gs.k).1⟩] } : GenState) :=
      StInv_of_fields inv rfl rfl rfl rfl rfl rfl rfl
    exact foldl_genPlayerDay_spec ρ day_idx (day_idx / 60 + 1) _ inv1
      (fun q hq => hpool q (sampleR_subset ρ _ _ _ q hq))

theorem StInv_init (players : List PlayerMeta) (k : Nat) :
    StInv players (initGenState k) := by
  refine ⟨?_, ?_, ?_, ?_, ?_, ?_, ?_, ?_, ?_, ?_, ?_, ?_, ?_, ?_, ?_⟩ <;>
    simp [initGenState]

theorem dayPools_char (ρ : RSeq) (players : List PlayerMeta) (dau : List ℤ)
    (k : Nat) (hc : ∀ p ∈ players, p.created_day ≤ p.churn_day_idx) (m : Nat) :
    (dayPools ((List.range m).foldl (dayStep ρ dau)
        ⟨[], sortedPlayers players, initGenState k⟩) m).1 =
      (sortedPlayers players).filter (fun p =>
        decide (p.created_day ≤ m) && decide (m ≤ p.churn_day_idx)) := by
  cases m with
  | zero =>
      simp only [List.range_zero, List.foldl_nil]
      exact (dayPools_base (sortedPlayers players) k
        (sortedPlayers_pairwise players)).1
  | succ d =>
      obtain ⟨hp, hpe, _, _⟩ :=
        activityFold_spec ρ players dau k hc (d + 1) (Nat.succ_pos d)
      simp only [Nat.add_sub_cancel] at hp hpe
      exact (dayPools_step (sortedPlayers_pairwise players)
        (fun q hq => hc q (mem_sortedPlayers.mp hq)) d hp hpe).1

theorem activity_StInv (ρ : RSeq) (players : List PlayerMeta) (dau : List ℤ)
    (k : Nat) (hc : ∀ p ∈ players, p.created_day ≤ p.churn_day_idx)
    (htz : ∀ p ∈ players, -8 ≤ p.time_zone_offset ∧ p.time_zone_offset ≤ 9) :
    ∀ n : Nat, StInv players ((List.range n).foldl (dayStep ρ dau)
      ⟨[], sortedPlayers players, initGenState k⟩).gs := by
  intro n
  induction n with
  | zero =>
      simp only [List.range_zero, List.foldl_nil]
      exact StInv_init players k
  | succ m ih =>
      rw [List.range_succ, List.foldl_append, List.foldl_cons, List.foldl_nil]
      refine dayStep_StInv ρ dau m ih ?_
      intro p hp
      rw [dayPools_char ρ players dau k hc m] at hp
      rw [List.mem_filter] at hp
      obtain ⟨hmem, hcond⟩ := hp
      simp only [Bool.and_eq_true, decide_eq_true_eq] at hcond
      have hpl : p ∈ players := mem_sortedPlayers.mp hmem
      exact ⟨hpl, (htz p hpl).1, (htz p hpl).2, hcond.1, hcond.2⟩

theorem gsep_StInv (ρ : RSeq) (numDays : Nat) (players : List PlayerMeta)
    (dau : List ℤ) (k : Nat)
    (hc : ∀ p ∈ players, p.created_day ≤ p.churn_day_idx)
    (htz : ∀ p ∈ players, -8 ≤ p.time_zone_offset ∧ p.time_zone_offset ≤ 9) :
    StInv players (generate_sessions_events_purchases ρ numDays players dau k) :=
  activity_StInv ρ players dau k hc htz numDays

/-- C1 (amended): every session, event and purchase row emitted by the
activity generator belongs to a generated player and carries no timestamp
before that player's creation timestamp; session starts exceed the end of
the churn-day UTC day by at most 111540 − 86400 seconds (the local
22:59 start pushed latest by the UTC−8 offset), and session ends, event
times and purchase times run past the session start without further bound
(durations and match times are unbounded draws).  The original upper
bound of C1 is refuted by `c1_counterexample`. -/
theorem c1_activity_timestamps (ρ : RSeq) (numDays : Nat)
    (players : List PlayerMeta) (dau : List ℤ) (k : Nat)
    (hc : ∀ p ∈ players, p.created_day ≤ p.churn_day_idx)
    (htz : ∀ p ∈ players, -8 ≤ p.time_zone_offset ∧ p.time_zone_offset ≤ 9) :
    (∀ s ∈ (generate_sessions_events_purchases ρ numDays players dau k).sessions,
        ∃ p ∈ players, s.player_id = p.player_id ∧
          (p.created_day : ℤ) * 86400 ≤ s.session_start ∧
          s.session_start ≤ (p.churn_day_idx : ℤ) * 86400 + 111540 ∧
          s.session_start ≤ s.session_end) ∧
      (∀ e ∈ (generate_sessions_events_purchases ρ numDays players dau k).events,
        ∃ p ∈ players, e.player_id = p.player_id ∧
          (p.created_day : ℤ) * 86400 ≤ e.event_time) ∧
      (∀ q ∈ (generate_sessions_events_purchases ρ numDays players dau k).purchases,
        ∃ p ∈ players, q.player_id = p.player_id ∧
          (p.created_day : ℤ) * 86400 ≤ q.purchase_time) :=
  ⟨(gsep_StInv ρ numDays players dau k hc htz).s_time,
   (gsep_StInv ρ numDays players dau k hc htz).e_time,
   (gsep_StInv ρ numDays players dau k hc htz).q_time⟩

/-- Witness for the amended C1 on a concrete one-player, one-day run. -/
theorem c1_activity_timestamps_witness :
    (∀ p ∈ [cxPlayer], p.created_day ≤ p.churn_day_idx) ∧
      (∀ p ∈ [cxPlayer], -8 ≤ p.time_zone_offset ∧ p.time_zone_offset ≤ 9) ∧
      ((∀ s ∈ (generate_sessions_events_purchases cxStream 1 [cxPlayer]
            ([1] : List ℤ) 0).sessions,
          ∃ p ∈ [cxPlayer], s.player_id = p.player_id ∧
            (p.created_day : ℤ) * 86400 ≤ s.session_start ∧
            s.session_start ≤ (p.churn_day_idx : ℤ) * 86400 + 111540 ∧
            s.session_start ≤ s.session_end) ∧
        (∀ e ∈ (generate_sessions_events_purchases cxStream 1 [cxPlayer]
            ([1] : List ℤ) 0).events,
          ∃ p ∈ [cxPlayer], e.player_id = p.player_id ∧
            (p.created_day : ℤ) * 86400 ≤ e.event_time) ∧
        (∀ q ∈ (generate_sessions_events_purchases cxStream 1 [cxPlayer]
            ([1] : List ℤ) 0).purchases,
          ∃ p ∈ [cxPlayer], q.player_id = p.player_id ∧
            (p.created_day : ℤ) * 86400 ≤ q.purchase_time)) :=
  ⟨by decide, by decide,
   c1_activity_timestamps cxStream 1 [cxPlayer] ([1] : List ℤ) 0
     (by decide) (by decide)⟩

/-- C7: every purchase row emitted by the activity generator belongs to a
player whose spend segment is not "nonpayer" (the purchase branch is
guarded on the spend segment). -/
theorem c7_purchases_only_payers (ρ : RSeq) (numDays : Nat)
    (players : List PlayerMeta) (dau : List ℤ) (k : Nat)
    (hc : ∀ p ∈ players, p.created_day ≤ p.churn_day_idx)
    (htz : ∀ p ∈ players, -8 ≤ p.time_zone_offset ∧ p.time_zone_offset ≤ 9) :
    ∀ q ∈ (generate_sessions_events_purchases ρ numDays players dau k).purchases,
      ∃ p ∈ players, q.player_id = p.player_id ∧
        p.spend_segment ≠ "nonpayer" :=
  (gsep_StInv ρ numDays players dau k hc htz).q_payer

/-- Witness for C7 on a concrete whale run emitting one purchase. -/
theorem c7_purchases_only_payers_witness :
    (∀ p ∈ [wPlayer], p.created_day ≤ p.churn_day_idx) ∧
      (∀ p ∈ [wPlayer], -8 ≤ p.time_zone_offset ∧ p.time_zone_offset ≤ 9) ∧
      ∀ q ∈ (generate_sessions_events_purchases wStream 1 [wPlayer]
          ([1] : List ℤ) 0).purchases,
        ∃ p ∈ [wPlayer], q.player_id = p.player_id ∧
          p.spend_segment ≠ "nonpayer" :=
  ⟨by decide, by decide,
   c7_purchases_only_payers wStream 1 [wPlayer] ([1] : List ℤ) 0
     (by decide) (by decide)⟩

/-- C8: session, event, purchase and match ids are strictly increasing in
emission order (hence never reused), and every event and purchase row
references a session id emitted in the same run. -/
theorem c8_id_monotonicity (ρ : RSeq) (numDays : Nat)
    (players : List PlayerMeta) (dau : List ℤ) (k : Nat)
    (hc : ∀ p ∈ players, p.created_day ≤ p.churn_day_idx)
    (htz : ∀ p ∈ players, -8 ≤ p.time_zone_offset ∧ p.time_zone_offset ≤ 9) :
    (((generate_sessions_events_purchases ρ numDays players dau k).sessions.map
        (fun s => s.session_id)).Pairwise (· < ·)) ∧
      (((generate_sessions_events_purchases ρ numDays players dau k).events.map
        (fun e => e.event_id)).Pairwise (· < ·)) ∧
      (((generate_sessions_events_purchases ρ numDays players dau k).purchases.map
        (fun q => q.purchase_id)).Pairwise (· < ·)) ∧
      ((((generate_sessions_events_purchases ρ numDays players dau k).events.filter
          (fun e => e.event_type = "match_start")).map
        (fun e => e.match_id)).Pairwise (· < ·)) ∧
      (∀ e ∈ (generate_sessions_events_purchases ρ numDays players dau k).events,
        e.session_id ∈ (generate_sessions_events_purchases ρ numDays players
          dau k).sessions.map (fun s => s.session_id)) ∧
      (∀ q ∈ (generate_sessions_events_purchases ρ numDays players dau k).purchases,
        q.session_id ∈ (generate_sessions_events_purchases ρ numDays players
          dau k).sessions.map (fun s => s.session_id)) :=
  ⟨(gsep_StInv ρ numDays players dau k hc htz).s_ids,
   (gsep_StInv ρ numDays players dau k hc htz).e_ids,
   (gsep_StInv ρ numDays players dau k hc htz).q_ids,
   (gsep_StInv ρ numDays players dau k hc htz).m_ids,
   (gsep_StInv ρ numDays players dau k hc htz).e_ref,
   (gsep_StInv ρ numDays players dau k hc htz).q_ref⟩

/-- Witness for C8 on a concrete whale run with one session, one match
(two events) and one purchase. -/
theorem c8_id_monotonicity_witness :
    (∀ p ∈ [wPlayer], p.created_day ≤ p.churn_day_idx) ∧
      (∀ p ∈ [wPlayer], -8 ≤ p.time_zone_offset ∧ p.time_zone_offset ≤ 9) ∧
      ((((generate_sessions_events_purchases wStream 1 [wPlayer]
          ([1] : List ℤ) 0).sessions.map
          (fun s => s.session_id)).Pairwise (· < ·)) ∧
        (((generate_sessions_events_purchases wStream 1 [wPlayer]
          ([1] : List ℤ) 0).events.map
          (fun e => e.event_id)).Pairwise (· < ·)) ∧
        (((generate_sessions_events_purchases wStream 1 [wPlayer]
          ([1] : List ℤ) 0).purchases.map
          (fun q => q.purchase_id)).Pairwise (· < ·)) ∧
        ((((generate_sessions_events_purchases wStream 1 [wPlayer]
            ([1] : List ℤ) 0).events.filter
            (fun e => e.event_type = "match_start")).map
          (fun e => e.match_id)).Pairwise (· < ·)) ∧
        (∀ e ∈ (generate_sessions_events_purchases wStream 1 [wPlayer]
            ([1] : List ℤ) 0).events,
          e.session_id ∈ (generate_sessions_events_purchases wStream 1 [wPlayer]
            ([1] : List ℤ) 0).sessions.map (fun s => s.session_id)) ∧
        (∀ q ∈ (generate_sessions_events_purchases wStream 1 [wPlayer]
            ([1] : List ℤ) 0).purchases,
          q.session_id ∈ (generate_sessions_events_purchases wStream 1 [wPlayer]
            ([1] : List ℤ) 0).sessions.map (fun s => s.session_id))) :=
  ⟨by decide, by decide,
   c8_id_monotonicity wStream 1 [wPlayer] ([1] : List ℤ) 0
     (by decide) (by decide)⟩

/-- C10: every purchase row emitted by the activity generator has currency
code "EUR", a local price equal to its EUR price, and an EUR price equal
to one of the catalogue cent amounts round(price * 100). -/
theorem c10_purchase_currency (ρ : RSeq) (numDays : Nat)
    (players : List PlayerMeta) (dau : List ℤ) (k : Nat)
    (hc : ∀ p ∈ players, p.created_day ≤ p.churn_day_idx)
    (htz : ∀ p ∈ players, -8 ≤ p.time_zone_offset ∧ p.time_zone_offset ≤ 9) :
    ∀ q ∈ (generate_sessions_events_purchases ρ numDays players dau k).purchases,
      q.currency_code = "EUR" ∧ q.price_local = q.price_eur ∧
        q.price_eur ∈ ([199, 999, 499, 1999] : List ℤ) :=
  (gsep_StInv ρ numDays players dau k hc htz).q_shape

/-- Witness for C10 on a concrete whale run emitting one purchase. -/
theorem c10_purchase_currency_witness :
    (∀ p ∈ [wPlayer], p.created_day ≤ p.churn_day_idx) ∧
      (∀ p ∈ [wPlayer], -8 ≤ p.time_zone_offset ∧ p.time_zone_offset ≤ 9) ∧
      ∀ q ∈ (generate_sessions_events_purchases wStream 1 [wPlayer]
          ([1] : List ℤ) 0).purchases,
        q.currency_code = "EUR" ∧ q.price_local = q.price_eur ∧
          q.price_eur ∈ ([199, 999, 499, 1999] : List ℤ) :=
  ⟨by decide, by decide,
   c10_purchase_currency wStream 1 [wPlayer] ([1] : List ℤ) 0
     (by decide) (by decide)⟩

end PDD
